import Mathlib

/-! # gidyon/gomicro: the JWT authentication and authorization core

A shallow embedding of `pkg/grpc/auth/auth.go` (package `grpcauth`), followed by the address
handling of `pkg/conn/dial.go` (package `conn`) and the constructor of `micros.go` (package
`gomicro`).

Conventions of the embedding

* a Go `string` is a Lean `String`; `[]string` is `List String`;
* a Go pointer `*T` is `Option T` (`none` is the nil pointer);
* a Go `[]byte` is `Option (List Nat)` (`none` is the nil slice);
* a Go `error` is `Option GoError` (`none` is the nil error);
* a function that may panic returns `Exec`;
* `context.Context` is the chain of `context.WithValue` nodes.
-/

namespace GrpcAuth

/-! ## Errors -/

/-- The gRPC status codes the package produces, and `Unknown`, the code of an error that is
not a status error. -/
inductive Code where
  | OK
  | Unknown
  | PermissionDenied
  | Unauthenticated
  deriving DecidableEq, Repr

/-- A Go `error` value: a gRPC status error (`status.Error`, `status.Errorf`) or another
error carrying only its message (`fmt.Errorf`, errors of the JWT library). -/
inductive GoError where
  | status (code : Code) (msg : String)
  | errorf (msg : String)
  deriving DecidableEq, Repr

/-- The code of an error, as `status.Code(err)` reports it. -/
def GoError.code : GoError → Code
  | .status c _ => c
  | .errorf _ => .Unknown

/-- The message of an error: the description of a status error, the text of a plain error. -/
def GoError.message : GoError → String
  | .status _ m => m
  | .errorf m => m

/-- The name of a status code, `code.String()`. -/
def Code.name : Code → String
  | .OK => "OK"
  | .Unknown => "Unknown"
  | .PermissionDenied => "PermissionDenied"
  | .Unauthenticated => "Unauthenticated"

/-- The method `err.Error()`: a status error reads `rpc error: code = ... desc = ...`, a plain
error is its text. -/
def GoError.Error : GoError → String
  | .status c m => "rpc error: code = " ++ c.name ++ " desc = " ++ m
  | .errorf m => m

/-- The outcome of running Go code: a normal return or a panic. -/
inductive Exec (α : Type) where
  | ret (a : α)
  | panic (msg : String)
  deriving DecidableEq, Repr

/-- The runtime panic raised on dereferencing a nil pointer. -/
def nilDeref : String := "runtime error: invalid memory address or nil pointer dereference"

/-! ## Data model -/

/-- A Go byte slice; `none` is the nil slice. -/
abbrev ByteSlice := Option (List Nat)

/-- The number of bytes of a slice, `len(b)`. -/
def ByteSlice.len (b : ByteSlice) : Nat := (b.getD []).length

/-- Modelled from the spec: the `Payload` type, whose declaration is not among the sources.
The spec gives it an identity string, a primary group string and extension fields. -/
structure Payload where
  ID : String
  Group : String
  Extra : List (String × String)
  deriving DecidableEq, Repr

/-- Modelled from the spec: the `Claims` type, whose declaration is not among the sources.
The spec lists `Payload` (a pointer in `auth.go`, which returns it as `*Payload`), `Roles`, `ID`,
`ExpiresAt`, `Issuer` and `Audience`. `IssuedAt` and `NotBefore` are the two other time fields
of the library's standard claims, which its validation reads. Times are in Unix seconds and
zero when unset. -/
structure Claims where
  Payload : Option Payload
  Roles : List String
  ID : String
  ExpiresAt : Int
  IssuedAt : Int
  NotBefore : Int
  Issuer : String
  Audience : String
  deriving DecidableEq, Repr

/-- The hash of an HMAC signing method. -/
inductive Hash where
  | SHA256
  | SHA384
  | SHA512
  deriving DecidableEq, Repr

/-- A `jwt.SigningMethod`: an HMAC method, the `none` method, or a method of another family
(RSA, ECDSA, RSA-PSS), named by its algorithm. -/
inductive SigningMethod where
  | HMAC (h : Hash)
  | none
  | asymmetric (alg : String)
  deriving DecidableEq, Repr

/-- The receiver type `API`. -/
structure API where
  signingMethod : SigningMethod
  signingKey : ByteSlice
  issuer : String
  audience : String
  adminsGroup : List String
  superAdmins : List String
  deriving DecidableEq, Repr

/-! ## Contexts -/

/-- A context key. `claims s` is a key of the package's own string type `claims`; any other
key is `other`. -/
inductive Key where
  | claims (s : String)
  | other (name : String)
  deriving DecidableEq, Repr

/-- The constant `claimsKey = claims("claims")`. -/
def claimsKey : Key := .claims "claims"

/-- A value held in a context, an `interface{}`: a `*Claims` (possibly the nil pointer) or a
value of some other dynamic type. -/
inductive Value where
  | claimsPtr (p : Option Claims)
  | other (repr : String)
  deriving DecidableEq, Repr

/-- A `context.Context`: the background context or a `context.WithValue` child. -/
inductive Context where
  | background
  | withValue (parent : Context) (key : Key) (val : Value)
  deriving DecidableEq, Repr

/-- The lookup `ctx.Value(key)`: the nearest enclosing value stored under `key`, `none` (the nil
interface) when there is none. -/
def Context.Value : Context → Key → Option Value
  | .background, _ => Option.none
  | .withValue parent k v, key => if key = k then some v else parent.Value key

/-- The type assertion `ctx.Value(claimsKey).(*Claims)`: the pointer and the `ok` flag. The
flag is true exactly when the stored value has dynamic type `*Claims`, the nil pointer
included. -/
def claimsFromCtx (ctx : Context) : Option Claims × Bool :=
  match ctx.Value claimsKey with
  | some (.claimsPtr p) => (p, true)
  | _ => (Option.none, false)

/-! ## Group and id matching -/

/-- The function `matchGroup`. -/
def matchGroup (claimGroup : String) : List String → Option GoError
  | [] => some (.status .PermissionDenied ("permission denied for group " ++ claimGroup))
  | group :: rest => if claimGroup = group then Option.none else matchGroup claimGroup rest

/-- The inner loop of `matchGroups`: whether some claim group equals `group`. -/
def matchGroupsInner (group : String) : List String → Bool
  | [] => false
  | claimGroup :: rest => if claimGroup = group then true else matchGroupsInner group rest

/-- The outer loop of `matchGroups`: whether the nested loops reach `return nil`. -/
def matchGroupsLoop (claimGroups : List String) : List String → Bool
  | [] => false
  | group :: rest =>
    if matchGroupsInner group claimGroups then true else matchGroupsLoop claimGroups rest

/-- The function `matchGroups`. -/
def matchGroups (claimGroups groups : List String) : Option GoError :=
  if matchGroupsLoop claimGroups groups then Option.none
  else some (.status .PermissionDenied
    ("permission denied for groups " ++ ",".intercalate claimGroups))

/-- The loop of `AuthorizeIds`: whether some allowed id equals the claims' id. -/
def idsLoop (claimID : String) : List String → Bool
  | [] => false
  | id :: rest => if claimID = id then true else idsLoop claimID rest

/-! ## Authorization -/

/-- The error every accessor returns when the context holds no `*Claims`. -/
def noClaims : GoError := .status .Unauthenticated "no claims found in token"

/-- The method `AuthorizeGroups`. -/
def AuthorizeGroups (_api : API) (ctx : Context) (groups : List String) :
    Exec (Option Payload × Option GoError) :=
  match claimsFromCtx ctx with
  | (_, false) => .ret (Option.none, some noClaims)
  | (Option.none, true) => .panic nilDeref
  | (some claims, true) =>
    match claims.Payload with
    | Option.none => .panic nilDeref
    | some payload =>
      match matchGroup payload.Group groups with
      | Option.none => .ret (claims.Payload, Option.none)
      | some _ =>
        match matchGroups claims.Roles groups with
        | some err => .ret (Option.none, some err)
        | Option.none => .ret (claims.Payload, Option.none)

/-- The method `AuthorizeIds`. The loop body reads `claims.ID`, so a nil `*Claims` panics as
soon as the loop runs once. -/
def AuthorizeIds (_api : API) (ctx : Context) (ids : List String) :
    Exec (Option Payload × Option GoError) :=
  let denied : GoError := .status .PermissionDenied
    ("permission denied for actors ids [" ++ ", ".intercalate ids ++ "]")
  match claimsFromCtx ctx with
  | (_, false) => .ret (Option.none, some noClaims)
  | (Option.none, true) =>
    match ids with
    | [] => .ret (Option.none, some denied)
    | _ :: _ => .panic nilDeref
  | (some claims, true) =>
    if idsLoop claims.ID ids then .ret (claims.Payload, Option.none)
    else .ret (Option.none, some denied)

/-- The method `GetPayload`. -/
def GetPayload (_api : API) (ctx : Context) : Exec (Option Payload × Option GoError) :=
  match claimsFromCtx ctx with
  | (_, false) => .ret (Option.none, some noClaims)
  | (Option.none, true) => .panic nilDeref
  | (some claims, true) => .ret (claims.Payload, Option.none)

/-- The method `GetClaims`. -/
def GetClaims (_api : API) (ctx : Context) : Exec (Option Claims × Option GoError) :=
  match claimsFromCtx ctx with
  | (_, false) => .ret (Option.none, some noClaims)
  | (claims, true) => .ret (claims, Option.none)

/-! ## Construction and the admin registry -/

/-- The constructor `NewAPI`. The `switch` tests `signingKey == nil`, `issuer == ""` and
`audience == ""` in this order. -/
def NewAPI (signingKey : ByteSlice) (issuer audience : String) : Exec API :=
  if signingKey = Option.none then .panic "missing jwt signing key"
  else if issuer = "" then .panic "missing jwt issuer"
  else if audience = "" then .panic "missing jwt audience"
  else .ret
    { signingMethod := .HMAC .SHA256
      signingKey := signingKey
      issuer := issuer
      audience := audience
      adminsGroup := []
      superAdmins := [] }

/-- The method `AddAdminGroups`; the receiver after the call. -/
def AddAdminGroups (api : API) (groups : List String) : API :=
  { api with adminsGroup := api.adminsGroup ++ groups }

/-- The method `AddSuperAdminGroups`; the receiver after the call. -/
def AddSuperAdminGroups (api : API) (groups : List String) : API :=
  { api with superAdmins := api.superAdmins ++ groups }

/-- The method `AdminGroups`. -/
def AdminGroups (api : API) : List String :=
  ([] ++ api.adminsGroup) ++ api.superAdmins

/-- The method `IsAdmin`. -/
def IsAdmin (api : API) (group : String) : Bool :=
  (matchGroup group (AdminGroups api)).isNone

/-- The method `IsSuperAdmin`. -/
def IsSuperAdmin (api : API) (group : String) : Bool :=
  (matchGroup group api.superAdmins).isNone

/-- The method `IsGroupAllowed`. -/
def IsGroupAllowed (_api : API) (group : String) (allowedGroups : List String) : Bool :=
  (matchGroup group allowedGroups).isNone

/-- The method `GetSigningKey`. -/
def GetSigningKey (api : API) : ByteSlice := api.signingKey

/-- A registration call on the admin registry. -/
inductive RegistryCall where
  | addAdmin (groups : List String)
  | addSuperAdmin (groups : List String)
  deriving DecidableEq, Repr

/-- The arguments of a registration call. -/
def RegistryCall.groups : RegistryCall → List String
  | .addAdmin gs => gs
  | .addSuperAdmin gs => gs

/-- Whether a call is an `AddSuperAdminGroups` call. -/
def RegistryCall.isSuper : RegistryCall → Bool
  | .addAdmin _ => false
  | .addSuperAdmin _ => true

/-- One registration call applied to the receiver. -/
def RegistryCall.apply (api : API) : RegistryCall → API
  | .addAdmin gs => AddAdminGroups api gs
  | .addSuperAdmin gs => AddSuperAdminGroups api gs

/-- A finite sequence of registration calls applied in order. -/
def applyCalls (api : API) (calls : List RegistryCall) : API :=
  calls.foldl RegistryCall.apply api

/-! ## Third-party routines

`auth.go` calls `grpc_auth.AuthFromMD` (go-grpc-middleware) and `jwt.ParseWithClaims`
(golang-jwt). Neither belongs to this repository. The repository's functions take them as the
parameter `Lib`; `golangJwt` below is a model of the second one over abstract encoding and
hashing primitives. -/

/-- A `jwt.Token`. `Method` is nil until the header's algorithm has been looked up; `Claims` is
the interface value `jwt.Claims`. -/
structure Token where
  Raw : String
  Method : Option SigningMethod
  Header : List (String × String)
  Claims : Value
  Signature : String
  Valid : Bool
  deriving DecidableEq, Repr

/-- A `jwt.Keyfunc` whose key is a byte slice: the key and the error it returns for a token. -/
abbrev Keyfunc := Token → ByteSlice × Option GoError

/-- The third-party routines the package calls.

* `AuthFromMD ctx scheme` is `grpc_auth.AuthFromMD`: the credential of the inbound metadata
  and an error;
* `ParseWithClaims tokenString claims keyFunc` is `jwt.ParseWithClaims`: the token and an
  error, or a panic. -/
structure Lib where
  AuthFromMD : Context → String → String × Option GoError
  ParseWithClaims : String → Claims → Keyfunc → Exec (Option Token × Option GoError)

/-- The composite literal `Claims{}`. -/
def emptyClaims : Claims :=
  { Payload := Option.none, Roles := [], ID := "", ExpiresAt := 0, IssuedAt := 0, NotBefore := 0,
    Issuer := "", Audience := "" }

/-- The function literal `parseToken` hands to the library as key lookup: it returns
`signingKey, nil` for every token. -/
def parseTokenKeyfunc (signingKey : ByteSlice) : Keyfunc :=
  fun _token => (signingKey, Option.none)

/-- The method `parseToken`. The deferred `recover` turns a panic into a plain error, the named
result `claims` being still nil; dereferencing a nil token is such a panic. -/
def parseToken (lib : Lib) (_api : API) (tokenString : String) (signingKey : ByteSlice) :
    Option Claims × Option GoError :=
  match lib.ParseWithClaims tokenString emptyClaims (parseTokenKeyfunc signingKey) with
  | .panic msg => (Option.none, some (.errorf msg))
  | .ret (_, some err) => (Option.none, some (.status .Unauthenticated err.Error))
  | .ret (Option.none, Option.none) => (Option.none, some (.errorf nilDeref))
  | .ret (some token, Option.none) =>
    match token.Claims with
    | .claimsPtr claims =>
      if token.Valid then (claims, Option.none)
      else (Option.none, some (.status .Unauthenticated "JWT is not valid"))
    | .other _ => (Option.none, some (.status .Unauthenticated "JWT is not valid"))

/-- The method `GetClaimsFromJwt`. -/
def GetClaimsFromJwt (lib : Lib) (api : API) (jwt : String) : Option Claims × Option GoError :=
  match parseToken lib api jwt api.signingKey with
  | (_, some err) => (Option.none, some err)
  | (claims, Option.none) => (claims, Option.none)

/-- The function `userClaimFromToken`; it reads a field of `claims` and panics on nil. -/
def userClaimFromToken : Option Claims → Exec (Option Payload)
  | Option.none => .panic nilDeref
  | some claims => .ret claims.Payload

/-- What an authenticator call yields: the returned context and error, the line it printed
on standard output and the tag it set on the context's tag set. -/
structure AuthOut where
  ctx : Option Context
  err : Option GoError
  printed : Option String
  tag : Option (String × Option Payload)
  deriving DecidableEq, Repr

/-- The error both authenticators return when the token does not decode. -/
def sessionExpired : GoError := .status .Unauthenticated "session expired"

/-- The method `Authenticator`. -/
def Authenticator (lib : Lib) (api : API) (ctx : Context) : Exec AuthOut :=
  match lib.AuthFromMD ctx "bearer" with
  | (_, some err) =>
    .ret { ctx := Option.none, err := some err, printed := Option.none, tag := Option.none }
  | (token, Option.none) =>
    match parseToken lib api token api.signingKey with
    | (_, some err) =>
      .ret { ctx := Option.none, err := some sessionExpired, printed := some err.Error,
             tag := Option.none }
    | (claims, Option.none) =>
      match userClaimFromToken claims with
      | .panic msg => .panic msg
      | .ret sub =>
        .ret { ctx := some (.withValue ctx claimsKey (.claimsPtr claims)), err := Option.none,
               printed := Option.none, tag := some ("auth.sub", sub) }

/-- The method `AuthenticatorWithKey`. -/
def AuthenticatorWithKey (lib : Lib) (api : API) (ctx : Context) (signingKey : ByteSlice) :
    Exec AuthOut :=
  match lib.AuthFromMD ctx "bearer" with
  | (_, some err) =>
    .ret { ctx := Option.none, err := some err, printed := Option.none, tag := Option.none }
  | (token, Option.none) =>
    match parseToken lib api token signingKey with
    | (_, some _) =>
      .ret { ctx := Option.none, err := some sessionExpired, printed := Option.none,
             tag := Option.none }
    | (claims, Option.none) =>
      match userClaimFromToken claims with
      | .panic msg => .panic msg
      | .ret sub =>
        .ret { ctx := some (.withValue ctx claimsKey (.claimsPtr claims)), err := Option.none,
               printed := Option.none, tag := some ("auth.sub", sub) }

/-! ## A model of the JWT library

`golangJwt` follows `Parser.ParseWithClaims` of golang-jwt v3 (import path
`github.com/golang-jwt/jwt`) with a zero-valued `Parser`, which is what the package-level
`jwt.ParseWithClaims` uses: no list of valid methods, claims validation on. Base64url, JSON and
the keyed hash are the parameters `Codec`. -/

/-- The encoding and hashing primitives under the JWT library.

* `decodeHeader seg`: `DecodeSegment` then `json.Unmarshal` into the header map;
* `decodeClaims seg claims`: `DecodeSegment` then JSON decoding into the claims passed in;
* `decodeSegment seg`: `DecodeSegment`, base64url decoding;
* `hmac h key msg`: the HMAC of `msg` under `key` with hash `h`;
* `encodeHeader`, `encodeClaims`, `encodeSegment`: JSON and base64url encoding.

A decoder returns the error text on failure. -/
structure Codec where
  decodeHeader : String → Except String (List (String × String))
  decodeClaims : String → Claims → Except String Claims
  decodeSegment : String → Except String (List Nat)
  hmac : Hash → List Nat → String → List Nat
  encodeHeader : List (String × String) → String
  encodeClaims : Claims → Except String String
  encodeSegment : List Nat → String

/-- The split of `strings.Split(s, ".")` on the characters of `s`; the result is never
empty. -/
def splitDot : List Char → List (List Char)
  | [] => [[]]
  | c :: cs =>
    if c = '.' then [] :: splitDot cs
    else
      match splitDot cs with
      | [] => [[c]]
      | seg :: rest => (c :: seg) :: rest

/-- The call `strings.Split(tokenString, ".")`. -/
def splitSegments (tokenString : String) : List String :=
  (splitDot tokenString.data).map String.mk

/-- The registry lookup `jwt.GetSigningMethod(alg)`. -/
def GetSigningMethod (alg : String) : Option SigningMethod :=
  if alg = "HS256" then some (.HMAC .SHA256)
  else if alg = "HS384" then some (.HMAC .SHA384)
  else if alg = "HS512" then some (.HMAC .SHA512)
  else if alg = "none" then some .none
  else if alg ∈ ["RS256", "RS384", "RS512", "PS256", "PS384", "PS512",
                 "ES256", "ES384", "ES512"] then some (.asymmetric alg)
  else Option.none

/-- The name of a signing method, `method.Alg()`. -/
def SigningMethod.Alg : SigningMethod → String
  | .HMAC .SHA256 => "HS256"
  | .HMAC .SHA384 => "HS384"
  | .HMAC .SHA512 => "HS512"
  | .none => "none"
  | .asymmetric alg => alg

/-- The call `method.Verify(signingString, signature, key)` for a key of dynamic type
`[]byte`. An HMAC method decodes the signature and compares it with the HMAC of the signing
string; the `none` method and the public-key methods refuse a byte-slice key. -/
def SigningMethod.Verify (cd : Codec) (m : SigningMethod) (signingString signature : String)
    (key : ByteSlice) : Option GoError :=
  match m with
  | .HMAC h =>
    match cd.decodeSegment signature with
    | .error e => some (.errorf e)
    | .ok sig =>
      if sig = cd.hmac h (key.getD []) signingString then Option.none
      else some (.errorf "signature is invalid")
  | .none => some (.errorf "'none' signature type is not allowed")
  | .asymmetric _ =>
    match cd.decodeSegment signature with
    | .error e => some (.errorf e)
    | .ok _ => some (.errorf "key is of invalid type")

/-- The call `method.Sign(signingString, key)` of an HMAC method with a byte-slice key. -/
def hmacSign (cd : Codec) (h : Hash) (signingString : String) (key : ByteSlice) : String :=
  cd.encodeSegment (cd.hmac h (key.getD []) signingString)

/-- The time checks `VerifyExpiresAt`, `VerifyIssuedAt` and `VerifyNotBefore` of the standard
claims, none of them required: an unset (zero) time passes, a set expiry passes when
`now <= ExpiresAt`, a set issue time or not-before time when it is `<= now`. -/
def Claims.verifyExp (now : Int) (c : Claims) : Bool :=
  if c.ExpiresAt = 0 then true else decide (now ≤ c.ExpiresAt)

/-- The check `VerifyIssuedAt(now, false)`. -/
def Claims.verifyIat (now : Int) (c : Claims) : Bool :=
  if c.IssuedAt = 0 then true else decide (c.IssuedAt ≤ now)

/-- The check `VerifyNotBefore(now, false)`. -/
def Claims.verifyNbf (now : Int) (c : Claims) : Bool :=
  if c.NotBefore = 0 then true else decide (c.NotBefore ≤ now)

/-- The method `Valid` of the claims at clock reading `now` (Unix seconds), which is
`StandardClaims.Valid`: it runs the expiry, issue-time and not-before checks in this order,
each failure overwriting the error text, and returns an error when one of them failed. The
text of the expiry error, which ends with the elapsed duration, is cut before the duration. -/
def Claims.Valid (now : Int) (c : Claims) : Option GoError :=
  if c.verifyNbf now = false then some (.errorf "token is not valid yet")
  else if c.verifyIat now = false then some (.errorf "Token used before issued")
  else if c.verifyExp now = false then some (.errorf "token is expired by")
  else Option.none

/-- The method `Parser.ParseUnverified`: the token, the segments and an error. -/
def ParseUnverified (cd : Codec) (tokenString : String) (claims : Claims) :
    Option Token × List String × Option GoError :=
  match splitSegments tokenString with
  | [p0, p1, p2] =>
    let token : Token :=
      { Raw := tokenString, Method := Option.none, Header := [], Claims := .other "nil",
        Signature := "", Valid := false }
    match cd.decodeHeader p0 with
    | .error e =>
      if (tokenString.data.map Char.toLower).take 7 = "bearer ".data then
        (some token, [p0, p1, p2], some (.errorf "tokenstring should not contain 'bearer '"))
      else (some token, [p0, p1, p2], some (.errorf e))
    | .ok header =>
      let token := { token with Header := header }
      match cd.decodeClaims p1 claims with
      | .error e =>
        (some { token with Claims := .claimsPtr (some claims) }, [p0, p1, p2],
          some (.errorf e))
      | .ok decoded =>
        let token := { token with Claims := .claimsPtr (some decoded) }
        match header.lookup "alg" with
        | Option.none =>
          (some token, [p0, p1, p2], some (.errorf "signing method (alg) is unspecified."))
        | some alg =>
          match GetSigningMethod alg with
          | Option.none =>
            (some token, [p0, p1, p2], some (.errorf "signing method (alg) is unavailable."))
          | some method => (some { token with Method := some method }, [p0, p1, p2], Option.none)
  | parts =>
    (Option.none, parts, some (.errorf "token contains an invalid number of segments"))

/-- The method `Parser.ParseWithClaims` of a zero-valued parser at clock reading `now`. After
`ParseUnverified` it asks `keyFunc` for the key, validates the claims, verifies the signature
with the method the header names, and marks the token valid when neither check failed; a
signature error takes the place of a claims error in the result. -/
def ParseWithClaims (cd : Codec) (now : Int) (tokenString : String) (claims : Claims)
    (keyFunc : Keyfunc) : Exec (Option Token × Option GoError) :=
  match ParseUnverified cd tokenString claims with
  | (token, _, some err) => .ret (token, some err)
  | (Option.none, _, Option.none) => .panic nilDeref
  | (some token, parts, Option.none) =>
    match keyFunc token with
    | (_, some err) => .ret (some token, some err)
    | (key, Option.none) =>
      let claimsErr : Option GoError :=
        match token.Claims with
        | .claimsPtr (some c) => c.Valid now
        | _ => Option.none
      let token := { token with Signature := parts.getD 2 "" }
      let sigErr : Option GoError :=
        match token.Method with
        | some m => m.Verify cd (parts.getD 0 "" ++ "." ++ parts.getD 1 "") token.Signature key
        | Option.none => some (.errorf nilDeref)
      match sigErr, claimsErr with
      | some e, _ => .ret (some token, some e)
      | Option.none, some e => .ret (some token, some e)
      | Option.none, Option.none => .ret (some { token with Valid := true }, Option.none)

/-- The library over the primitives `cd`, the clock reading `now` and a metadata reader. -/
def golangJwt (cd : Codec) (now : Int) (authFromMD : Context → String → String × Option GoError) :
    Lib :=
  { AuthFromMD := authFromMD, ParseWithClaims := ParseWithClaims cd now }

/-! ## Token issuance -/

/-- A `time.Time`, as nanoseconds since the Unix epoch. -/
structure Time where
  nanos : Int
  deriving DecidableEq, Repr

/-- The method `Time.Unix`: whole seconds since the epoch, rounded down. -/
def Time.Unix (t : Time) : Int := t.nanos / 1000000000

/-- Modelled from the spec: the method `genTokenV2`, which `GenTokenUsingKey` and
`GenTokenFromClaims` call and which is not among the sources. The spec's `Encode` sets the
claims' expiry field to the given expiry, signs the serialized claims with the signing key and
returns the token; the token is three dot-separated segments, a header declaring the instance's
algorithm, the encoded claims and the HMAC over header and claims; it fails only when
serialization fails. `claims` is what the non-nil pointer argument points to. -/
def genTokenV2 (cd : Codec) (api : API) (_ctx : Context) (claims : Claims) (expires : Int)
    (signingKey : ByteSlice) : String × Option GoError :=
  let claims := { claims with ExpiresAt := expires }
  match cd.encodeClaims claims with
  | .error e => ("", some (.errorf e))
  | .ok seg =>
    let signingString :=
      cd.encodeHeader [("typ", "JWT"), ("alg", api.signingMethod.Alg)] ++ "." ++ seg
    match api.signingMethod with
    | .HMAC h => (signingString ++ "." ++ hmacSign cd h signingString signingKey, Option.none)
    | _ => ("", some (.errorf "key is of invalid type"))

/-- The method `GenTokenUsingKey`. -/
def GenTokenUsingKey (cd : Codec) (api : API) (ctx : Context) (claims : Claims)
    (expirationTime : Time) (signingKey : ByteSlice) : String × Option GoError :=
  genTokenV2 cd api ctx claims expirationTime.Unix signingKey

/-- The method `GenTokenFromClaims`. -/
def GenTokenFromClaims (cd : Codec) (api : API) (ctx : Context) (claims : Claims)
    (expirationTime : Time) : String × Option GoError :=
  genTokenV2 cd api ctx claims expirationTime.Unix api.signingKey

/-! ## Sample values -/

/-- A sample payload. -/
def samplePayload : Payload := { ID := "user-42", Group := "billing", Extra := [] }

/-- Sample claims: primary group `billing`, one role `eng`. -/
def sampleClaims : Claims :=
  { Payload := some samplePayload, Roles := ["eng"], ID := "user-42", ExpiresAt := 7200,
    IssuedAt := 1800, NotBefore := 1800, Issuer := "auth.example", Audience := "api.example" }

/-- A sample receiver, as `NewAPI` builds it from a three-byte key. -/
def sampleAPI : API :=
  { signingMethod := .HMAC .SHA256, signingKey := some [1, 2, 3], issuer := "auth.example",
    audience := "api.example", adminsGroup := [], superAdmins := [] }

/-- A context that carries the sample claims. -/
def sampleCtx : Context := .withValue .background claimsKey (.claimsPtr (some sampleClaims))

/-- A context with a value under another key and none under the claims key. -/
def bareCtx : Context := .withValue .background (.other "request-id") (.other "r-1")

/-- Sample claims before issuance: the sample claims with no expiry set. -/
def draftClaims : Claims := { sampleClaims with ExpiresAt := 0 }

/-- Sample claims of another issuer and audience than the sample receiver's. -/
def foreignClaims : Claims :=
  { Payload := some samplePayload, Roles := ["eng"], ID := "user-42", ExpiresAt := 7200,
    IssuedAt := 1800, NotBefore := 1800, Issuer := "rogue.example",
    Audience := "elsewhere.example" }

/-- The claims segments of the sample encoding. -/
def sampleSegments : List (String × Claims) :=
  [("billing-claims", sampleClaims), ("foreign-claims", foreignClaims)]

/-- The number that tells the hashes apart in the sample keyed hash. -/
def Hash.tag : Hash → Nat
  | .SHA256 => 0
  | .SHA384 => 1
  | .SHA512 => 2

/-- A small instance of the primitives, for evaluating the code on concrete tokens: the header
segment is the algorithm name, a claims segment is a name in `sampleSegments`, a signature
segment spells its bytes as characters, and the keyed hash is two bytes computed from the
hash, the key and the message. -/
def sampleCodec : Codec :=
  { decodeHeader := fun seg =>
      if seg = "" then .error "unexpected end of JSON input"
      else .ok [("typ", "JWT"), ("alg", seg)]
    decodeClaims := fun seg _ =>
      match sampleSegments.lookup seg with
      | some c => .ok c
      | Option.none => .error "invalid character in claims segment"
    decodeSegment := fun seg => .ok (seg.data.map Char.toNat)
    hmac := fun h key msg => [65 + h.tag, 97 + (key.sum + (msg.data.map Char.toNat).sum) % 26]
    encodeHeader := fun header => (header.lookup "alg").getD ""
    encodeClaims := fun c =>
      match sampleSegments.find? (fun e => e.2 = c) with
      | some e => .ok e.1
      | Option.none => .error "unsupported claims"
    encodeSegment := fun bs => String.mk (bs.map Char.ofNat) }

/-- A metadata reader for a context whose authorization header is `bearer` and `token`. -/
def bearerOf (token : String) : Context → String → String × Option GoError :=
  fun _ _ => (token, Option.none)

/-- The sample library: the sample primitives, the clock at 3600 seconds, and inbound
metadata presenting `token`. -/
def sampleLib (token : String) : Lib := golangJwt sampleCodec 3600 (bearerOf token)

/-- An expiry instant: 7200.5 seconds after the epoch. -/
def sampleExpiry : Time := { nanos := 7200500000000 }

/-- The header `genTokenV2` writes for the instance's HS256 method. -/
def hs256Header : List (String × String) := [("typ", "JWT"), ("alg", "HS256")]

/-- The primitives invert each other on the token of claims `c` under `key`: the claims
encode to a segment that decodes to `c` again, the HS256 header and the signature decode to
what was encoded, and none of the three segments contains a dot. -/
def Codec.invertsOn (cd : Codec) (c : Claims) (key : ByteSlice) : Prop :=
  match cd.encodeClaims c with
  | .error _ => False
  | .ok seg =>
    cd.decodeClaims seg emptyClaims = .ok c ∧
    cd.decodeHeader (cd.encodeHeader hs256Header) = .ok hs256Header ∧
    cd.decodeSegment (hmacSign cd .SHA256 (cd.encodeHeader hs256Header ++ "." ++ seg) key) =
      .ok (cd.hmac .SHA256 (key.getD []) (cd.encodeHeader hs256Header ++ "." ++ seg)) ∧
    '.' ∉ (cd.encodeHeader hs256Header).data ∧
    '.' ∉ seg.data ∧
    '.' ∉ (hmacSign cd .SHA256 (cd.encodeHeader hs256Header ++ "." ++ seg) key).data

deriving instance DecidableEq for Except

instance Codec.decInvertsOn (cd : Codec) (c : Claims) (key : ByteSlice) :
    Decidable (cd.invertsOn c key) := by
  unfold Codec.invertsOn
  cases cd.encodeClaims c <;> infer_instance

/-- A clock reading: 3600 seconds after the epoch. -/
def sampleNow : Time := { nanos := 3600000000000 }

/-! ## Text search -/

/-- Whether the characters `s` begin with the characters `sub`. -/
def startsWithChars : List Char → List Char → Bool
  | _, [] => true
  | [], _ :: _ => false
  | c :: cs, d :: ds => if c = d then startsWithChars cs ds else false

/-- Whether the characters `sub` occur in `s` as a contiguous run. -/
def containsChars : List Char → List Char → Bool
  | [], sub => startsWithChars [] sub
  | c :: cs, sub => if startsWithChars (c :: cs) sub then true else containsChars cs sub

/-- The call `strings.Contains(s, substr)`. -/
def Contains (s substr : String) : Bool := containsChars s.data substr.data

/-! ## The methods as programs over the receiver

The methods of `API` once more, as programs whose state is the receiver `*api`: a read of a
field is a `get`, an assignment to a field is a `modify`, and a body that does neither does not
mention the state. -/

namespace Recv

/-- The method `AddAdminGroups`: `api.adminsGroup = append(api.adminsGroup, groups...)`. -/
def AddAdminGroups (groups : List String) : StateM API Unit :=
  modify fun api => { api with adminsGroup := api.adminsGroup ++ groups }

/-- The method `AddSuperAdminGroups`: `api.superAdmins = append(api.superAdmins, groups...)`. -/
def AddSuperAdminGroups (groups : List String) : StateM API Unit :=
  modify fun api => { api with superAdmins := api.superAdmins ++ groups }

/-- The method `AdminGroups`: a fresh slice to which both lists are appended. -/
def AdminGroups : StateM API (List String) := do
  let api ← get
  let groups : List String := []
  let groups := groups ++ api.adminsGroup
  let groups := groups ++ api.superAdmins
  return groups

/-- The method `IsAdmin`: `matchGroup(group, api.AdminGroups()) == nil`. -/
def IsAdmin (group : String) : StateM API Bool := do
  let groups ← AdminGroups
  return (matchGroup group groups).isNone

/-- The method `IsSuperAdmin`: `matchGroup(group, api.superAdmins) == nil`. -/
def IsSuperAdmin (group : String) : StateM API Bool := do
  let api ← get
  return (matchGroup group api.superAdmins).isNone

/-- The method `IsGroupAllowed`: `matchGroup(group, allowedGroups) == nil`. -/
def IsGroupAllowed (group : String) (allowedGroups : List String) : StateM API Bool := do
  return (matchGroup group allowedGroups).isNone

/-- The method `GetSigningKey`: `return api.signingKey`. -/
def GetSigningKey : StateM API ByteSlice := do
  let api ← get
  return api.signingKey

/-- The method `AuthorizeGroups`, statement by statement. -/
def AuthorizeGroups (ctx : Context) (groups : List String) :
    StateM API (Exec (Option Payload × Option GoError)) := do
  match claimsFromCtx ctx with
  | (_, false) => return .ret (Option.none, some noClaims)
  | (Option.none, true) => return .panic nilDeref
  | (some claims, true) =>
    match claims.Payload with
    | Option.none => return .panic nilDeref
    | some payload =>
      match matchGroup payload.Group groups with
      | Option.none => return .ret (claims.Payload, Option.none)
      | some _ =>
        match matchGroups claims.Roles groups with
        | some err => return .ret (Option.none, some err)
        | Option.none => return .ret (claims.Payload, Option.none)

/-- The method `AuthorizeIds`, statement by statement. -/
def AuthorizeIds (ctx : Context) (ids : List String) :
    StateM API (Exec (Option Payload × Option GoError)) := do
  match claimsFromCtx ctx with
  | (_, false) => return .ret (Option.none, some noClaims)
  | (Option.none, true) =>
    match ids with
    | [] =>
      return .ret (Option.none, some (.status .PermissionDenied
        ("permission denied for actors ids [" ++ ", ".intercalate ids ++ "]")))
    | _ :: _ => return .panic nilDeref
  | (some claims, true) =>
    if idsLoop claims.ID ids then return .ret (claims.Payload, Option.none)
    else
      return .ret (Option.none, some (.status .PermissionDenied
        ("permission denied for actors ids [" ++ ", ".intercalate ids ++ "]")))

end Recv

/-- A method run on the receiver `api`: what it returns and the receiver after the call. -/
def runOn {α : Type} (api : API) (method : StateM API α) : α × API :=
  Id.run (method.run api)

/-! ## More sample values -/

/-- Claims minted without a payload: the `Payload` pointer is nil. -/
def anonymousClaims : Claims :=
  { Payload := Option.none, Roles := ["eng"], ID := "user-7", ExpiresAt := 7200,
    IssuedAt := 0, NotBefore := 0, Issuer := "auth.example", Audience := "api.example" }

/-- A context that carries the claims without payload. -/
def anonymousCtx : Context :=
  .withValue .background claimsKey (.claimsPtr (some anonymousClaims))

/-- A context that holds a nil `*Claims` under the claims key. -/
def nilClaimsCtx : Context := .withValue .background claimsKey (.claimsPtr Option.none)

/-- The sample primitives with one more claims segment, which decodes to the claims without
payload. -/
def anonymousCodec : Codec :=
  { sampleCodec with
    decodeClaims := fun seg c =>
      if seg = "anonymous-claims" then .ok anonymousClaims else sampleCodec.decodeClaims seg c }

/-- The library over `anonymousCodec`, the clock at 3600 seconds, and inbound metadata
presenting `token`. -/
def anonymousLib (token : String) : Lib := golangJwt anonymousCodec 3600 (bearerOf token)

end GrpcAuth

/-! # Package `conn`: dialing a gRPC service (`pkg/conn/dial.go`) -/

namespace Conn

/-- The call `strings.HasSuffix(s, suffix)`. -/
def HasSuffix (s suffix : String) : Bool :=
  decide (suffix.data.length ≤ s.data.length) &&
    decide (s.data.drop (s.data.length - suffix.data.length) = suffix.data)

/-- The call `strings.TrimSuffix(s, suffix)`: `s` without the trailing `suffix`, or `s` itself
when it does not end with `suffix`. -/
def TrimSuffix (s suffix : String) : String :=
  if HasSuffix s suffix then String.mk (s.data.take (s.data.length - suffix.data.length))
  else s

/-- The type `GrpcDialOptions`; a dial option is named by a string. -/
structure GrpcDialOptions where
  ServiceName : String
  Address : String
  DialOptions : List String
  K8Service : Bool
  deriving DecidableEq, Repr

/-- The dial options `DialGrpcService` always passes, before the caller's. -/
def defaultDialOptions : List String :=
  ["WithDefaultServiceConfig(round_robin)", "WithDisableServiceConfig",
   "WithUnaryInterceptor(ChainUnaryClient(waitForReadyInterceptor))"]

/-- The function `DialGrpcService`. `DialContext` is the third-party `grpc.DialContext`; the
result is what it returns for the address and options handed to it, together with `*opt` after
the call, whose `Address` the function overwrites. -/
def DialGrpcService {C R : Type} (DialContext : C → String → List String → R) (ctx : C)
    (opt : GrpcDialOptions) : R × GrpcDialOptions :=
  let dopts := defaultDialOptions ++ opt.DialOptions
  let opt :=
    if opt.K8Service then
      let opt := { opt with Address := TrimSuffix opt.Address "dns:///" }
      { opt with Address := "dns:///" ++ opt.Address }
    else
      let opt := { opt with Address := TrimSuffix opt.Address "passthrough:///" }
      { opt with Address := "passthrough:///" ++ opt.Address }
  (DialContext ctx opt.Address dopts, opt)

/-- A stand-in for `grpc.DialContext` that reports the address it was asked to dial. -/
def dialedAddress : Unit → String → List String → String :=
  fun _ address _ => address

end Conn

/-! # Package `gomicro`: the service store (`micros.go`) -/

namespace Gomicro

/-- A `grpclog.LoggerV2` value, told apart by a name. -/
structure Logger where
  name : String
  deriving DecidableEq, Repr

/-- The constant `zerolog.TraceLevel`. -/
def TraceLevel : Int := -1

/-- The type `Options`. A function value is named by a string, durations are in nanoseconds;
`Logger` is an interface and `NowFunc` a function, both nil when `none`. -/
structure Options where
  ServiceName : String
  HttpPort : Int
  GrpcPort : Int
  Logger : Option Logger
  RuntimeMuxEndpoint : String
  ServerReadTimeout : Int
  ServerWriteTimeout : Int
  NowFunc : Option String
  TLSEnabled : Bool
  TlSCertFile : String
  TlSKeyFile : String
  TLSServerName : String
  deriving DecidableEq, Repr

/-- The type `Service`, without the fields `NewService` fills with freshly allocated objects
(`httpMux`, `runtimeMux`, `clientConn`, `gRPCServer`, `initOnceFn`, `runOnceFn`). `options` is
what the stored pointer refers to; a slice element is named by a string. -/
structure Service where
  options : Options
  serveMuxOptions : List String
  serverOptions : List String
  unaryInterceptors : List String
  streamInterceptors : List String
  dialOptions : List String
  unaryClientInterceptors : List String
  streamClientInterceptors : List String
  httpMiddlewares : List String
  shutdowns : List String
  nowFunc : Option String
  deriving DecidableEq, Repr

/-- The function `NewService`. `NewLogger` is the package's logger constructor, which is not
among the sources and is taken as a parameter. The test on the logger is `opt.Logger != nil`;
a nil `opt` panics on that test. -/
def NewService (NewLogger : String → Int → Logger) (opt : Option Options) :
    GrpcAuth.Exec (Option Service × Option GrpcAuth.GoError) :=
  match opt with
  | Option.none => .panic GrpcAuth.nilDeref
  | some opt =>
    let opt :=
      if opt.Logger ≠ Option.none then { opt with Logger := some (NewLogger "app" TraceLevel) }
      else opt
    .ret (some
      { options := opt
        httpMiddlewares := []
        serveMuxOptions := []
        serverOptions := []
        unaryInterceptors := []
        streamInterceptors := []
        dialOptions := []
        unaryClientInterceptors := []
        streamClientInterceptors := []
        shutdowns := []
        nowFunc := opt.NowFunc }, Option.none)

/-- A logger constructor for evaluating `NewService`: the logger named after its arguments. -/
def sampleNewLogger : String → Int → Logger :=
  fun name _ => { name := name }

/-- Options that leave the logger nil. -/
def sampleOptions : Options :=
  { ServiceName := "billing", HttpPort := 8080, GrpcPort := 9090, Logger := Option.none,
    RuntimeMuxEndpoint := "/", ServerReadTimeout := 0, ServerWriteTimeout := 0,
    NowFunc := Option.none, TLSEnabled := false, TlSCertFile := "", TlSKeyFile := "",
    TLSServerName := "" }

end Gomicro

namespace GrpcAuth

/-! ## Lemmas on the matching loops -/

theorem matchGroup_isNone_iff (g : String) (groups : List String) :
    matchGroup g groups = Option.none ↔ g ∈ groups := by
  induction groups with
  | nil => simp [matchGroup]
  | cons x xs ih =>
    by_cases h : g = x
    · simp [matchGroup, h]
    · simp [matchGroup, h, ih]

theorem matchGroup_denied (g : String) (groups : List String) (h : g ∉ groups) :
    matchGroup g groups =
      some (.status .PermissionDenied ("permission denied for group " ++ g)) := by
  induction groups with
  | nil => simp [matchGroup]
  | cons x xs ih =>
    have hx : g ≠ x := fun e => h (by simp [e])
    have hxs : g ∉ xs := fun e => h (by simp [e])
    simp [matchGroup, hx, ih hxs]

theorem matchGroupsInner_iff (group : String) (claimGroups : List String) :
    matchGroupsInner group claimGroups = true ↔ group ∈ claimGroups := by
  induction claimGroups with
  | nil => simp [matchGroupsInner]
  | cons x xs ih =>
    by_cases h : x = group
    · simp [matchGroupsInner, h]
    · have h2 : ¬ group = x := fun e => h e.symm
      simp [matchGroupsInner, h, h2, ih]

theorem matchGroupsLoop_iff (claimGroups groups : List String) :
    matchGroupsLoop claimGroups groups = true ↔ ∃ r ∈ claimGroups, r ∈ groups := by
  induction groups with
  | nil => simp [matchGroupsLoop]
  | cons x xs ih =>
    by_cases h : matchGroupsInner x claimGroups = true
    · have hx := (matchGroupsInner_iff x claimGroups).mp h
      simp only [matchGroupsLoop, h, if_true, true_iff]
      exact ⟨x, hx, by simp⟩
    · have hx : x ∉ claimGroups := fun e => h ((matchGroupsInner_iff x claimGroups).mpr e)
      have hstep : matchGroupsLoop claimGroups (x :: xs) = matchGroupsLoop claimGroups xs := by
        simp [matchGroupsLoop, h]
      rw [hstep, ih]
      constructor
      · rintro ⟨r, hr, hrx⟩
        exact ⟨r, hr, by simp [hrx]⟩
      · rintro ⟨r, hr, hrx⟩
        rcases List.mem_cons.mp hrx with e | e
        · exact absurd (e ▸ hr) hx
        · exact ⟨r, hr, e⟩

theorem matchGroups_isNone_iff (claimGroups groups : List String) :
    matchGroups claimGroups groups = Option.none ↔ ∃ r ∈ claimGroups, r ∈ groups := by
  unfold matchGroups
  by_cases h : matchGroupsLoop claimGroups groups = true
  · simp only [h, if_true, true_iff]
    exact (matchGroupsLoop_iff _ _).mp h
  · have h2 : ¬ ∃ r ∈ claimGroups, r ∈ groups := fun e => h ((matchGroupsLoop_iff _ _).mpr e)
    simp [h, h2]

theorem idsLoop_iff (claimID : String) (ids : List String) :
    idsLoop claimID ids = true ↔ claimID ∈ ids := by
  induction ids with
  | nil => simp [idsLoop]
  | cons x xs ih =>
    by_cases h : claimID = x
    · simp [idsLoop, h]
    · simp [idsLoop, h, ih]

theorem claimsFromCtx_of_value (ctx : Context) (p : Option Claims)
    (h : ctx.Value claimsKey = some (.claimsPtr p)) : claimsFromCtx ctx = (p, true) := by
  simp [claimsFromCtx, h]

theorem claimsFromCtx_of_absent (ctx : Context)
    (h : ∀ p, ctx.Value claimsKey ≠ some (.claimsPtr p)) :
    claimsFromCtx ctx = (Option.none, false) := by
  unfold claimsFromCtx
  cases hv : ctx.Value claimsKey with
  | none => rfl
  | some v =>
    cases v with
    | claimsPtr p => exact absurd hv (h p)
    | other r => rfl

/-! ## Group authorization -/

/-- For a context that carries claims `c` with payload `p`, `AuthorizeGroups` returns
`c.Payload` with a nil error exactly when `p.Group` is an allowed group or some role of `c` is;
otherwise it returns a nil payload and a `PermissionDenied` error; and success is the same as
some element of the list `p.Group :: c.Roles` being an allowed group. -/
theorem AuthorizeGroups_succeeds_iff (api : API) (ctx : Context) (c : Claims) (p : Payload)
    (G : List String) (hctx : ctx.Value claimsKey = some (.claimsPtr (some c)))
    (hp : c.Payload = some p) :
    (AuthorizeGroups api ctx G = .ret (c.Payload, Option.none) ↔
        (p.Group ∈ G ∨ ∃ r ∈ c.Roles, r ∈ G)) ∧
    (¬ (p.Group ∈ G ∨ ∃ r ∈ c.Roles, r ∈ G) →
        ∃ err, AuthorizeGroups api ctx G = .ret (Option.none, some err) ∧
          err.code = .PermissionDenied) ∧
    (AuthorizeGroups api ctx G = .ret (c.Payload, Option.none) ↔
        ∃ g ∈ p.Group :: c.Roles, g ∈ G) := by
  have hc := claimsFromCtx_of_value ctx (some c) hctx
  have key : AuthorizeGroups api ctx G = .ret (c.Payload, Option.none) ↔
      (p.Group ∈ G ∨ ∃ r ∈ c.Roles, r ∈ G) := by
    by_cases hg : p.Group ∈ G
    · have h1 := (matchGroup_isNone_iff p.Group G).mpr hg
      simp [AuthorizeGroups, hc, hp, h1, hg]
    · have h1 := matchGroup_denied p.Group G hg
      by_cases hr : ∃ r ∈ c.Roles, r ∈ G
      · have h2 := (matchGroups_isNone_iff c.Roles G).mpr hr
        simp only [AuthorizeGroups, hc, hp, h1, h2, true_iff]
        exact Or.inr hr
      · have h2 : matchGroups c.Roles G ≠ Option.none :=
          fun e => hr ((matchGroups_isNone_iff c.Roles G).mp e)
        cases h3 : matchGroups c.Roles G with
        | none => exact absurd h3 h2
        | some err => simp [AuthorizeGroups, hc, hp, h1, h3, hg, hr]
  refine ⟨key, ?_, ?_⟩
  · intro hno
    have hg : p.Group ∉ G := fun e => hno (Or.inl e)
    have hr : ¬ ∃ r ∈ c.Roles, r ∈ G := fun e => hno (Or.inr e)
    have h1 := matchGroup_denied p.Group G hg
    have hloop : matchGroupsLoop c.Roles G = false := by
      cases hl : matchGroupsLoop c.Roles G with
      | false => rfl
      | true => exact absurd ((matchGroupsLoop_iff _ _).mp hl) hr
    refine ⟨.status .PermissionDenied
      ("permission denied for groups " ++ ",".intercalate c.Roles), ?_, rfl⟩
    simp [AuthorizeGroups, hc, hp, h1, matchGroups, hloop]
  · rw [key]
    simp

/-- The preceding theorem at the sample context and the allowed groups `eng`. -/
theorem AuthorizeGroups_succeeds_iff_witness :
    sampleCtx.Value claimsKey = some (.claimsPtr (some sampleClaims)) ∧
    sampleClaims.Payload = some samplePayload ∧
    ((AuthorizeGroups sampleAPI sampleCtx ["eng"] = .ret (sampleClaims.Payload, Option.none) ↔
        (samplePayload.Group ∈ ["eng"] ∨ ∃ r ∈ sampleClaims.Roles, r ∈ ["eng"])) ∧
    (¬ (samplePayload.Group ∈ ["eng"] ∨ ∃ r ∈ sampleClaims.Roles, r ∈ ["eng"]) →
        ∃ err, AuthorizeGroups sampleAPI sampleCtx ["eng"] = .ret (Option.none, some err) ∧
          err.code = .PermissionDenied) ∧
    (AuthorizeGroups sampleAPI sampleCtx ["eng"] = .ret (sampleClaims.Payload, Option.none) ↔
        ∃ g ∈ samplePayload.Group :: sampleClaims.Roles, g ∈ ["eng"])) :=
  ⟨by decide, rfl,
    AuthorizeGroups_succeeds_iff sampleAPI sampleCtx sampleClaims samplePayload ["eng"]
      (by decide) rfl⟩

/-- C1, the code at the failing input: the context carries claims whose role `eng` is an
allowed group, so the call should return the claims' payload and a nil error; the claims
have no payload, and `AuthorizeGroups` panics on reading the primary group instead of
returning. -/
theorem AuthorizeGroups_allowed_role_panics :
    anonymousCtx.Value claimsKey = some (.claimsPtr (some anonymousClaims)) ∧
    (∃ r ∈ anonymousClaims.Roles, r ∈ ["eng"]) ∧
    AuthorizeGroups sampleAPI anonymousCtx ["eng"] = .panic nilDeref ∧
    AuthorizeGroups sampleAPI anonymousCtx ["eng"] ≠
      .ret (anonymousClaims.Payload, Option.none) := by
  refine ⟨by decide, by decide, by decide, by decide⟩

/-! ## Identity authorization -/

/-- C2: for a context that carries claims `c`, `AuthorizeIds` returns `c.Payload` with a nil
error exactly when `c.ID` equals some allowed id; otherwise it returns a nil payload and a
`PermissionDenied` error; with no allowed id it always fails so. -/
theorem AuthorizeIds_succeeds_iff (api : API) (ctx : Context) (c : Claims) (I : List String)
    (hctx : ctx.Value claimsKey = some (.claimsPtr (some c))) :
    (AuthorizeIds api ctx I = .ret (c.Payload, Option.none) ↔ ∃ id ∈ I, c.ID = id) ∧
    ((¬ ∃ id ∈ I, c.ID = id) →
        ∃ err, AuthorizeIds api ctx I = .ret (Option.none, some err) ∧
          err.code = .PermissionDenied) ∧
    (∃ err, AuthorizeIds api ctx [] = .ret (Option.none, some err) ∧
          err.code = .PermissionDenied) := by
  have hc := claimsFromCtx_of_value ctx (some c) hctx
  refine ⟨?_, ?_, ?_⟩
  · by_cases h : c.ID ∈ I
    · have hl := (idsLoop_iff c.ID I).mpr h
      simp [AuthorizeIds, hc, hl, h]
    · have hl : idsLoop c.ID I = false := by
        cases e : idsLoop c.ID I with
        | false => rfl
        | true => exact absurd ((idsLoop_iff _ _).mp e) h
      simp [AuthorizeIds, hc, hl, h]
  · intro h
    have h2 : c.ID ∉ I := fun e => h ⟨c.ID, e, rfl⟩
    have hl : idsLoop c.ID I = false := by
      cases e : idsLoop c.ID I with
      | false => rfl
      | true => exact absurd ((idsLoop_iff _ _).mp e) h2
    exact ⟨.status .PermissionDenied
      ("permission denied for actors ids [" ++ ", ".intercalate I ++ "]"),
      by simp [AuthorizeIds, hc, hl], rfl⟩
  · exact ⟨.status .PermissionDenied
      ("permission denied for actors ids [" ++ ", ".intercalate [] ++ "]"),
      by simp [AuthorizeIds, hc, idsLoop], rfl⟩

/-- Witness of C2 at the sample context and the allowed ids `user-4` and `user-42`. -/
theorem AuthorizeIds_succeeds_iff_witness :
    sampleCtx.Value claimsKey = some (.claimsPtr (some sampleClaims)) ∧
    ((AuthorizeIds sampleAPI sampleCtx ["user-4", "user-42"] =
        .ret (sampleClaims.Payload, Option.none) ↔
        ∃ id ∈ ["user-4", "user-42"], sampleClaims.ID = id) ∧
    ((¬ ∃ id ∈ ["user-4", "user-42"], sampleClaims.ID = id) →
        ∃ err, AuthorizeIds sampleAPI sampleCtx ["user-4", "user-42"] =
            .ret (Option.none, some err) ∧ err.code = .PermissionDenied) ∧
    (∃ err, AuthorizeIds sampleAPI sampleCtx [] = .ret (Option.none, some err) ∧
          err.code = .PermissionDenied)) :=
  ⟨by decide, AuthorizeIds_succeeds_iff sampleAPI sampleCtx sampleClaims ["user-4", "user-42"]
    (by decide)⟩

/-! ## Contexts without claims -/

/-- C3: when the context holds no `*Claims` under the claims key, `AuthorizeGroups`,
`AuthorizeIds`, `GetPayload` and `GetClaims` return a nil result and one and the same error,
whose code is `Unauthenticated`, whatever groups or ids are allowed. -/
theorem no_claims_unauthenticated (api : API) (ctx : Context) (groups ids : List String)
    (h : ∀ p, ctx.Value claimsKey ≠ some (.claimsPtr p)) :
    AuthorizeGroups api ctx groups = .ret (Option.none, some noClaims) ∧
    AuthorizeIds api ctx ids = .ret (Option.none, some noClaims) ∧
    GetPayload api ctx = .ret (Option.none, some noClaims) ∧
    GetClaims api ctx = .ret (Option.none, some noClaims) ∧
    noClaims.code = .Unauthenticated ∧ noClaims.code ≠ .PermissionDenied := by
  have hc := claimsFromCtx_of_absent ctx h
  refine ⟨?_, ?_, ?_, ?_, rfl, by decide⟩
  · simp [AuthorizeGroups, hc]
  · simp [AuthorizeIds, hc]
  · simp [GetPayload, hc]
  · simp [GetClaims, hc]

/-- Witness of C3 at a context that holds only a request id. -/
theorem no_claims_unauthenticated_witness :
    (∀ p, bareCtx.Value claimsKey ≠ some (.claimsPtr p)) ∧
    (AuthorizeGroups sampleAPI bareCtx ["billing"] = .ret (Option.none, some noClaims) ∧
    AuthorizeIds sampleAPI bareCtx ["user-42"] = .ret (Option.none, some noClaims) ∧
    GetPayload sampleAPI bareCtx = .ret (Option.none, some noClaims) ∧
    GetClaims sampleAPI bareCtx = .ret (Option.none, some noClaims) ∧
    noClaims.code = .Unauthenticated ∧ noClaims.code ≠ .PermissionDenied) :=
  ⟨fun _ h => by simp [bareCtx, Context.Value, claimsKey] at h,
    no_claims_unauthenticated sampleAPI bareCtx ["billing"] ["user-42"]
      (fun _ h => by simp [bareCtx, Context.Value, claimsKey] at h)⟩

/-! ## The admin registry -/

theorem mem_adminsGroup_applyCalls (api : API) (calls : List RegistryCall) (g : String) :
    g ∈ (applyCalls api calls).adminsGroup ↔
      g ∈ api.adminsGroup ∨ ∃ call ∈ calls, call.isSuper = false ∧ g ∈ call.groups := by
  induction calls generalizing api with
  | nil => simp [applyCalls]
  | cons call rest ih =>
    have hstep : applyCalls api (call :: rest) = applyCalls (call.apply api) rest := rfl
    rw [hstep, ih]
    cases call with
    | addAdmin gs =>
      simp [RegistryCall.apply, AddAdminGroups, RegistryCall.isSuper, RegistryCall.groups,
        or_assoc]
    | addSuperAdmin gs =>
      simp [RegistryCall.apply, AddSuperAdminGroups, RegistryCall.isSuper, RegistryCall.groups]

theorem mem_superAdmins_applyCalls (api : API) (calls : List RegistryCall) (g : String) :
    g ∈ (applyCalls api calls).superAdmins ↔
      g ∈ api.superAdmins ∨ ∃ call ∈ calls, call.isSuper = true ∧ g ∈ call.groups := by
  induction calls generalizing api with
  | nil => simp [applyCalls]
  | cons call rest ih =>
    have hstep : applyCalls api (call :: rest) = applyCalls (call.apply api) rest := rfl
    rw [hstep, ih]
    cases call with
    | addAdmin gs =>
      simp [RegistryCall.apply, AddAdminGroups, RegistryCall.isSuper, RegistryCall.groups]
    | addSuperAdmin gs =>
      simp [RegistryCall.apply, AddSuperAdminGroups, RegistryCall.isSuper, RegistryCall.groups,
        or_assoc]

theorem IsAdmin_iff (api : API) (g : String) :
    IsAdmin api g = true ↔ g ∈ api.adminsGroup ∨ g ∈ api.superAdmins := by
  unfold IsAdmin AdminGroups
  rw [Option.isNone_iff_eq_none, matchGroup_isNone_iff]
  simp

theorem IsSuperAdmin_iff (api : API) (g : String) :
    IsSuperAdmin api g = true ↔ g ∈ api.superAdmins := by
  unfold IsSuperAdmin
  rw [Option.isNone_iff_eq_none, matchGroup_isNone_iff]

theorem NewAPI_registry_empty (key : ByteSlice) (iss aud : String) (api : API)
    (h : NewAPI key iss aud = .ret api) : api.adminsGroup = [] ∧ api.superAdmins = [] := by
  unfold NewAPI at h
  split_ifs at h
  cases h
  exact ⟨rfl, rfl⟩

theorem IsAdmin_applyCalls_iff (api : API) (calls : List RegistryCall) (g : String)
    (h1 : api.adminsGroup = []) (h2 : api.superAdmins = []) :
    IsAdmin (applyCalls api calls) g = true ↔ ∃ call ∈ calls, g ∈ call.groups := by
  rw [IsAdmin_iff, mem_adminsGroup_applyCalls, mem_superAdmins_applyCalls, h1, h2]
  constructor
  · rintro ((h | ⟨call, hc, -, hg⟩) | (h | ⟨call, hc, -, hg⟩))
    · simp at h
    · exact ⟨call, hc, hg⟩
    · simp at h
    · exact ⟨call, hc, hg⟩
  · rintro ⟨call, hc, hg⟩
    cases hs : call.isSuper with
    | false => exact Or.inl (Or.inr ⟨call, hc, hs, hg⟩)
    | true => exact Or.inr (Or.inr ⟨call, hc, hs, hg⟩)

theorem IsSuperAdmin_applyCalls_iff (api : API) (calls : List RegistryCall) (g : String)
    (h2 : api.superAdmins = []) :
    IsSuperAdmin (applyCalls api calls) g = true ↔
      ∃ call ∈ calls, call.isSuper = true ∧ g ∈ call.groups := by
  rw [IsSuperAdmin_iff, mem_superAdmins_applyCalls, h2]
  simp

/-- C4: on an API freshly built by `NewAPI`, after any finite sequence of `AddAdminGroups` and
`AddSuperAdminGroups` calls, `IsAdmin g` holds exactly when `g` was an argument of some call,
and `IsSuperAdmin g` exactly when `g` was an argument of some `AddSuperAdminGroups` call.
Hence `IsAdmin g` is false before any call, two sequences with the same calls (in any order,
with any repetition) give the same answers, an admin group stays admin under further calls,
and a super-admin group is an admin group. -/
theorem registry_membership (key : ByteSlice) (iss aud : String) (api : API)
    (hnew : NewAPI key iss aud = .ret api) (calls : List RegistryCall) (g : String) :
    (IsAdmin (applyCalls api calls) g = true ↔ ∃ call ∈ calls, g ∈ call.groups) ∧
    (IsSuperAdmin (applyCalls api calls) g = true ↔
      ∃ call ∈ calls, call.isSuper = true ∧ g ∈ call.groups) ∧
    IsAdmin api g = false ∧
    (∀ calls2 : List RegistryCall, (∀ call, call ∈ calls2 ↔ call ∈ calls) →
      IsAdmin (applyCalls api calls2) g = IsAdmin (applyCalls api calls) g ∧
      IsSuperAdmin (applyCalls api calls2) g = IsSuperAdmin (applyCalls api calls) g) ∧
    (∀ more : List RegistryCall, IsAdmin (applyCalls api calls) g = true →
      IsAdmin (applyCalls api (calls ++ more)) g = true) ∧
    (IsSuperAdmin (applyCalls api calls) g = true → IsAdmin (applyCalls api calls) g = true) := by
  obtain ⟨h1, h2⟩ := NewAPI_registry_empty key iss aud api hnew
  have hA := fun cs => IsAdmin_applyCalls_iff api cs g h1 h2
  have hS := fun cs => IsSuperAdmin_applyCalls_iff api cs g h2
  refine ⟨hA calls, hS calls, ?_, ?_, ?_, ?_⟩
  · have h0 := hA []
    simp only [applyCalls, List.foldl] at h0
    cases hb : IsAdmin api g with
    | false => rfl
    | true => simpa using h0.mp hb
  · intro calls2 hsame
    constructor
    · rw [Bool.eq_iff_iff, hA calls2, hA calls]
      simp only [hsame]
    · rw [Bool.eq_iff_iff, hS calls2, hS calls]
      simp only [hsame]
  · intro more hadm
    obtain ⟨call, hc, hg⟩ := (hA calls).mp hadm
    exact (hA (calls ++ more)).mpr ⟨call, List.mem_append.mpr (Or.inl hc), hg⟩
  · intro hsup
    obtain ⟨call, hc, -, hg⟩ := (hS calls).mp hsup
    exact (hA calls).mpr ⟨call, hc, hg⟩

/-- Witness of C4 at the sample receiver, one admin and one super-admin registration, and the
group `ops`. -/
theorem registry_membership_witness :
    NewAPI (some [1, 2, 3]) "auth.example" "api.example" = .ret sampleAPI ∧
    ((IsAdmin (applyCalls sampleAPI [.addAdmin ["ops"], .addSuperAdmin ["root"]]) "ops" = true ↔
      ∃ call ∈ [RegistryCall.addAdmin ["ops"], .addSuperAdmin ["root"]], "ops" ∈ call.groups) ∧
    (IsSuperAdmin (applyCalls sampleAPI [.addAdmin ["ops"], .addSuperAdmin ["root"]]) "ops" = true ↔
      ∃ call ∈ [RegistryCall.addAdmin ["ops"], .addSuperAdmin ["root"]],
        call.isSuper = true ∧ "ops" ∈ call.groups) ∧
    IsAdmin sampleAPI "ops" = false ∧
    (∀ calls2 : List RegistryCall,
      (∀ call, call ∈ calls2 ↔ call ∈ [RegistryCall.addAdmin ["ops"], .addSuperAdmin ["root"]]) →
      IsAdmin (applyCalls sampleAPI calls2) "ops" =
        IsAdmin (applyCalls sampleAPI [.addAdmin ["ops"], .addSuperAdmin ["root"]]) "ops" ∧
      IsSuperAdmin (applyCalls sampleAPI calls2) "ops" =
        IsSuperAdmin (applyCalls sampleAPI [.addAdmin ["ops"], .addSuperAdmin ["root"]]) "ops") ∧
    (∀ more : List RegistryCall,
      IsAdmin (applyCalls sampleAPI [.addAdmin ["ops"], .addSuperAdmin ["root"]]) "ops" = true →
      IsAdmin (applyCalls sampleAPI ([.addAdmin ["ops"], .addSuperAdmin ["root"]] ++ more)) "ops"
        = true) ∧
    (IsSuperAdmin (applyCalls sampleAPI [.addAdmin ["ops"], .addSuperAdmin ["root"]]) "ops" = true →
      IsAdmin (applyCalls sampleAPI [.addAdmin ["ops"], .addSuperAdmin ["root"]]) "ops" = true)) :=
  ⟨by decide,
    registry_membership (some [1, 2, 3]) "auth.example" "api.example" sampleAPI (by decide)
      [.addAdmin ["ops"], .addSuperAdmin ["root"]] "ops"⟩

/-! ## Authentication -/

theorem parseToken_of_panic (lib : Lib) (api : API) (token : String) (key : ByteSlice)
    (msg : String)
    (h : lib.ParseWithClaims token emptyClaims (parseTokenKeyfunc key) = .panic msg) :
    parseToken lib api token key = (Option.none, some (.errorf msg)) := by
  simp [parseToken, h]

/-- C5: when the inbound context presents a bearer token and decoding it fails, for whatever
cause, `Authenticator` and `AuthenticatorWithKey` return a nil context and the one error
`sessionExpired`, of code `Unauthenticated` and message `session expired`; a panic of the
library during parsing is such a failure. -/
theorem authenticators_uniform_failure (lib : Lib) (api : API) (ctx : Context) (token : String)
    (key : ByteSlice) (hmd : lib.AuthFromMD ctx "bearer" = (token, Option.none)) :
    ((parseToken lib api token api.signingKey).2 ≠ Option.none →
      ∃ out, Authenticator lib api ctx = .ret out ∧ out.ctx = Option.none ∧
        out.err = some sessionExpired) ∧
    ((parseToken lib api token key).2 ≠ Option.none →
      ∃ out, AuthenticatorWithKey lib api ctx key = .ret out ∧ out.ctx = Option.none ∧
        out.err = some sessionExpired) ∧
    (∀ msg, lib.ParseWithClaims token emptyClaims (parseTokenKeyfunc api.signingKey) = .panic msg →
      ∃ out, Authenticator lib api ctx = .ret out ∧ out.ctx = Option.none ∧
        out.err = some sessionExpired) ∧
    (∀ msg, lib.ParseWithClaims token emptyClaims (parseTokenKeyfunc key) = .panic msg →
      ∃ out, AuthenticatorWithKey lib api ctx key = .ret out ∧ out.ctx = Option.none ∧
        out.err = some sessionExpired) ∧
    sessionExpired.code = .Unauthenticated ∧ sessionExpired.message = "session expired" := by
  have hk : ∀ k : ByteSlice, (parseToken lib api token k).2 ≠ Option.none →
      ∃ e, (parseToken lib api token k).2 = some e := by
    intro k hne
    cases he : (parseToken lib api token k).2 with
    | none => exact absurd he hne
    | some e => exact ⟨e, rfl⟩
  have hwith : ∀ k : ByteSlice, (parseToken lib api token k).2 ≠ Option.none →
      ∃ out, AuthenticatorWithKey lib api ctx k = .ret out ∧ out.ctx = Option.none ∧
        out.err = some sessionExpired := by
    intro k hne
    obtain ⟨e, he⟩ := hk k hne
    have hp : parseToken lib api token k = ((parseToken lib api token k).1, some e) := by
      rw [← he]
    refine ⟨{ ctx := Option.none, err := some sessionExpired, printed := Option.none,
              tag := Option.none }, ?_, rfl, rfl⟩
    unfold AuthenticatorWithKey
    rw [hmd]
    simp only
    rw [hp]
  have hown : (parseToken lib api token api.signingKey).2 ≠ Option.none →
      ∃ out, Authenticator lib api ctx = .ret out ∧ out.ctx = Option.none ∧
        out.err = some sessionExpired := by
    intro hne
    obtain ⟨e, he⟩ := hk api.signingKey hne
    have hp : parseToken lib api token api.signingKey =
        ((parseToken lib api token api.signingKey).1, some e) := by
      rw [← he]
    refine ⟨{ ctx := Option.none, err := some sessionExpired, printed := some e.Error,
              tag := Option.none }, ?_, rfl, rfl⟩
    unfold Authenticator
    rw [hmd]
    simp only
    rw [hp]
  refine ⟨hown, hwith key, ?_, ?_, rfl, rfl⟩
  · intro msg hpanic
    apply hown
    rw [parseToken_of_panic lib api token api.signingKey msg hpanic]
    simp
  · intro msg hpanic
    apply hwith key
    rw [parseToken_of_panic lib api token key msg hpanic]
    simp

/-- Witness of C5 at inbound metadata that presents the ill-formed token `garbage`. -/
theorem authenticators_uniform_failure_witness :
    (sampleLib "garbage").AuthFromMD .background "bearer" = ("garbage", Option.none) ∧
    (((parseToken (sampleLib "garbage") sampleAPI "garbage" sampleAPI.signingKey).2 ≠ Option.none →
      ∃ out, Authenticator (sampleLib "garbage") sampleAPI .background = .ret out ∧
        out.ctx = Option.none ∧ out.err = some sessionExpired) ∧
    ((parseToken (sampleLib "garbage") sampleAPI "garbage" (some [9])).2 ≠ Option.none →
      ∃ out, AuthenticatorWithKey (sampleLib "garbage") sampleAPI .background (some [9]) =
        .ret out ∧ out.ctx = Option.none ∧ out.err = some sessionExpired) ∧
    (∀ msg, (sampleLib "garbage").ParseWithClaims "garbage" emptyClaims
        (parseTokenKeyfunc sampleAPI.signingKey) = .panic msg →
      ∃ out, Authenticator (sampleLib "garbage") sampleAPI .background = .ret out ∧
        out.ctx = Option.none ∧ out.err = some sessionExpired) ∧
    (∀ msg, (sampleLib "garbage").ParseWithClaims "garbage" emptyClaims
        (parseTokenKeyfunc (some [9])) = .panic msg →
      ∃ out, AuthenticatorWithKey (sampleLib "garbage") sampleAPI .background (some [9]) =
        .ret out ∧ out.ctx = Option.none ∧ out.err = some sessionExpired) ∧
    sessionExpired.code = .Unauthenticated ∧ sessionExpired.message = "session expired") :=
  ⟨rfl, authenticators_uniform_failure (sampleLib "garbage") sampleAPI .background "garbage"
    (some [9]) rfl⟩

/-- C6: when the bearer token of `ctx` decodes to claims `c`, `Authenticator` returns a nil
error and the child context of `ctx` that holds `c` under the claims key: `GetClaims` on it
returns `c`, `GetPayload` returns `c.Payload`, and every other key reads as in `ctx`. -/
theorem Authenticator_attaches_claims (lib : Lib) (api : API) (ctx : Context) (token : String)
    (c : Claims) (hmd : lib.AuthFromMD ctx "bearer" = (token, Option.none))
    (hparse : parseToken lib api token api.signingKey = (some c, Option.none)) :
    Authenticator lib api ctx =
      .ret { ctx := some (.withValue ctx claimsKey (.claimsPtr (some c))), err := Option.none,
             printed := Option.none, tag := some ("auth.sub", c.Payload) } ∧
    GetClaims api (.withValue ctx claimsKey (.claimsPtr (some c))) =
      .ret (some c, Option.none) ∧
    GetPayload api (.withValue ctx claimsKey (.claimsPtr (some c))) =
      .ret (c.Payload, Option.none) ∧
    (∀ k, k ≠ claimsKey →
      (Context.withValue ctx claimsKey (.claimsPtr (some c))).Value k = ctx.Value k) := by
  refine ⟨?_, ?_, ?_, ?_⟩
  · unfold Authenticator
    rw [hmd]
    simp only
    rw [hparse]
    rfl
  · simp [GetClaims, claimsFromCtx, Context.Value]
  · simp [GetPayload, claimsFromCtx, Context.Value]
  · intro k hk
    simp [Context.Value, hk]

/-! ## Construction -/

/-- C7, the code at the failing input: `NewAPI` with a non-nil signing key of length zero and
a non-empty issuer and audience does not panic; it returns an API holding the empty key. -/
theorem NewAPI_accepts_empty_key :
    ByteSlice.len (some []) = 0 ∧
    NewAPI (some []) "auth.example" "api.example" =
      .ret { signingMethod := .HMAC .SHA256, signingKey := some [], issuer := "auth.example",
             audience := "api.example", adminsGroup := [], superAdmins := [] } := by
  constructor
  · rfl
  · decide

/-! ## Token verification -/

theorem splitDot_of_no_dot (a : List Char) (h : '.' ∉ a) : splitDot a = [a] := by
  induction a with
  | nil => rfl
  | cons c cs ih =>
    have hc : c ≠ '.' := fun e => h (by simp [e])
    have hcs : '.' ∉ cs := fun e => h (by simp [e])
    simp [splitDot, hc, ih hcs]

theorem splitDot_append_dot (a b : List Char) (h : '.' ∉ a) :
    splitDot (a ++ '.' :: b) = a :: splitDot b := by
  induction a with
  | nil => simp [splitDot]
  | cons c cs ih =>
    have hc : c ≠ '.' := fun e => h (by simp [e])
    have hcs : '.' ∉ cs := fun e => h (by simp [e])
    simp [splitDot, hc, ih hcs]

theorem splitSegments_three (p0 p1 p2 : String) (h0 : '.' ∉ p0.data) (h1 : '.' ∉ p1.data)
    (h2 : '.' ∉ p2.data) : splitSegments (p0 ++ "." ++ p1 ++ "." ++ p2) = [p0, p1, p2] := by
  have hd : (p0 ++ "." ++ p1 ++ "." ++ p2).data =
      p0.data ++ '.' :: (p1.data ++ '.' :: p2.data) := by
    simp [String.data_append]
  unfold splitSegments
  rw [hd, splitDot_append_dot _ _ h0, splitDot_append_dot _ _ h1, splitDot_of_no_dot _ h2]
  rfl

/-- A token of three segments whose header names an HMAC method is accepted when its
signature is the HMAC of the first two segments under the key and its claims are not
expired. -/
theorem parseToken_accepts (cd : Codec) (now : Int)
    (rd : Context → String → String × Option GoError) (api : API) (token : String)
    (key : ByteSlice) (p0 p1 p2 : String) (header : List (String × String)) (cl : Claims)
    (alg : String) (h : Hash)
    (hsplit : splitSegments token = [p0, p1, p2])
    (hh : cd.decodeHeader p0 = .ok header)
    (hc : cd.decodeClaims p1 emptyClaims = .ok cl)
    (halg : header.lookup "alg" = some alg)
    (hm : GetSigningMethod alg = some (.HMAC h))
    (hsig : cd.decodeSegment p2 = .ok (cd.hmac h (key.getD []) (p0 ++ "." ++ p1)))
    (hv : cl.Valid now = Option.none) :
    parseToken (golangJwt cd now rd) api token key = (some cl, Option.none) := by
  simp [parseToken, golangJwt, ParseWithClaims, ParseUnverified, hsplit, hh, hc, halg, hm,
    parseTokenKeyfunc, SigningMethod.Verify, hsig, hv]

/-- A token of three segments whose header names a method that is not an HMAC method, or no
registered method, is rejected. -/
theorem parseToken_rejects (cd : Codec) (now : Int)
    (rd : Context → String → String × Option GoError) (api : API) (token : String)
    (key : ByteSlice) (p0 p1 p2 : String) (header : List (String × String)) (cl : Claims)
    (alg : String)
    (hsplit : splitSegments token = [p0, p1, p2])
    (hh : cd.decodeHeader p0 = .ok header)
    (hc : cd.decodeClaims p1 emptyClaims = .ok cl)
    (halg : header.lookup "alg" = some alg)
    (hm : ∀ h, GetSigningMethod alg ≠ some (.HMAC h)) :
    ∃ err, parseToken (golangJwt cd now rd) api token key = (Option.none, some err) := by
  cases hg : GetSigningMethod alg with
  | none =>
    exact ⟨_, by simp [parseToken, golangJwt, ParseWithClaims, ParseUnverified, hsplit, hh, hc,
      halg, hg]; rfl⟩
  | some m =>
    cases m with
    | HMAC h => exact absurd hg (hm h)
    | none =>
      exact ⟨_, by simp [parseToken, golangJwt, ParseWithClaims, ParseUnverified, hsplit, hh,
        hc, halg, hg, parseTokenKeyfunc, SigningMethod.Verify]; rfl⟩
    | asymmetric a =>
      cases hd : cd.decodeSegment p2 with
      | error e =>
        exact ⟨_, by simp [parseToken, golangJwt, ParseWithClaims, ParseUnverified, hsplit, hh,
          hc, halg, hg, parseTokenKeyfunc, SigningMethod.Verify, hd]; rfl⟩
      | ok bs =>
        exact ⟨_, by simp [parseToken, golangJwt, ParseWithClaims, ParseUnverified, hsplit, hh,
          hc, halg, hg, parseTokenKeyfunc, SigningMethod.Verify, hd]; rfl⟩

/-- Witness of C6 at inbound metadata presenting an HS256 token of the sample claims. -/
theorem Authenticator_attaches_claims_witness :
    (sampleLib "HS256.billing-claims.Al").AuthFromMD bareCtx "bearer" =
      ("HS256.billing-claims.Al", Option.none) ∧
    parseToken (sampleLib "HS256.billing-claims.Al") sampleAPI "HS256.billing-claims.Al"
      sampleAPI.signingKey = (some sampleClaims, Option.none) ∧
    (Authenticator (sampleLib "HS256.billing-claims.Al") sampleAPI bareCtx =
      .ret { ctx := some (.withValue bareCtx claimsKey (.claimsPtr (some sampleClaims))),
             err := Option.none, printed := Option.none,
             tag := some ("auth.sub", sampleClaims.Payload) } ∧
    GetClaims sampleAPI (.withValue bareCtx claimsKey (.claimsPtr (some sampleClaims))) =
      .ret (some sampleClaims, Option.none) ∧
    GetPayload sampleAPI (.withValue bareCtx claimsKey (.claimsPtr (some sampleClaims))) =
      .ret (sampleClaims.Payload, Option.none) ∧
    (∀ k, k ≠ claimsKey →
      (Context.withValue bareCtx claimsKey (.claimsPtr (some sampleClaims))).Value k =
        bareCtx.Value k)) :=
  ⟨rfl, by decide,
    Authenticator_attaches_claims (sampleLib "HS256.billing-claims.Al") sampleAPI bareCtx
      "HS256.billing-claims.Al" sampleClaims rfl (by decide)⟩

/-- C8, the code at the failing inputs: on the receiver built for HS256, the key lookup of
`parseToken` returns the key for a token whose method is HS384, and `parseToken`,
`GetClaimsFromJwt`, `Authenticator` and `AuthenticatorWithKey` accept a token whose header
names HS384 and whose signature is the HS384 one under the receiver's key; a token that names
HS512 is accepted in the same way. A token that names `none` is rejected. -/
theorem parseToken_accepts_HS384 :
    sampleAPI.signingMethod = .HMAC .SHA256 ∧
    sampleCodec.decodeHeader "HS384" = .ok [("typ", "JWT"), ("alg", "HS384")] ∧
    parseTokenKeyfunc sampleAPI.signingKey
      { Raw := "HS384.billing-claims.Bn", Method := some (.HMAC .SHA384),
        Header := [("typ", "JWT"), ("alg", "HS384")], Claims := .claimsPtr (some sampleClaims),
        Signature := "", Valid := false } = (sampleAPI.signingKey, Option.none) ∧
    parseToken (sampleLib "") sampleAPI "HS384.billing-claims.Bn" sampleAPI.signingKey =
      (some sampleClaims, Option.none) ∧
    GetClaimsFromJwt (sampleLib "") sampleAPI "HS384.billing-claims.Bn" =
      (some sampleClaims, Option.none) ∧
    Authenticator (sampleLib "HS384.billing-claims.Bn") sampleAPI .background =
      .ret { ctx := some sampleCtx, err := Option.none, printed := Option.none,
             tag := some ("auth.sub", sampleClaims.Payload) } ∧
    AuthenticatorWithKey (sampleLib "HS384.billing-claims.Bn") sampleAPI .background
        sampleAPI.signingKey =
      .ret { ctx := some sampleCtx, err := Option.none, printed := Option.none,
             tag := some ("auth.sub", sampleClaims.Payload) } ∧
    parseToken (sampleLib "") sampleAPI "HS512.billing-claims.Cg" sampleAPI.signingKey =
      (some sampleClaims, Option.none) ∧
    parseToken (sampleLib "") sampleAPI "none.billing-claims." sampleAPI.signingKey =
      (Option.none, some (.status .Unauthenticated "'none' signature type is not allowed")) := by
  refine ⟨rfl, by simp [sampleCodec], rfl, by decide, by decide, by decide, by decide,
    by decide, by decide⟩

/-- C9, the claim refuted: the sample receiver, configured with issuer `auth.example` and
audience `api.example`, accepts a correctly signed, unexpired token whose claims carry another
issuer and another audience; `GetClaimsFromJwt` and `Authenticator` accept it too. -/
theorem parseToken_accepts_foreign_issuer :
    foreignClaims.Issuer ≠ sampleAPI.issuer ∧ foreignClaims.Audience ≠ sampleAPI.audience ∧
    parseToken (sampleLib "HS256.foreign-claims.Au") sampleAPI "HS256.foreign-claims.Au"
      sampleAPI.signingKey = (some foreignClaims, Option.none) ∧
    GetClaimsFromJwt (sampleLib "HS256.foreign-claims.Au") sampleAPI "HS256.foreign-claims.Au" =
      (some foreignClaims, Option.none) ∧
    Authenticator (sampleLib "HS256.foreign-claims.Au") sampleAPI .background =
      .ret { ctx := some (.withValue .background claimsKey (.claimsPtr (some foreignClaims))),
             err := Option.none, printed := Option.none,
             tag := some ("auth.sub", foreignClaims.Payload) } := by
  refine ⟨by decide, by decide, by decide, by decide, by decide⟩

/-- C9 as amended: token verification does not compare the issuer or the audience of a token
with the instance's. A token of three decodable segments that is correctly signed with HS256
under the instance's key and whose claims pass the library's time validation (expiry, issue
time, not-before time) is accepted by `parseToken`, `GetClaimsFromJwt` and `Authenticator`
whatever issuer and audience its claims carry, and by every instance holding the same key,
whatever issuer and audience that instance is configured with. -/
theorem parseToken_ignores_issuer_audience (cd : Codec) (now : Int)
    (rd : Context → String → String × Option GoError) (api : API) (token : String)
    (p0 p1 p2 : String) (header : List (String × String)) (cl : Claims)
    (hsplit : splitSegments token = [p0, p1, p2])
    (hh : cd.decodeHeader p0 = .ok header)
    (hc : cd.decodeClaims p1 emptyClaims = .ok cl)
    (halg : header.lookup "alg" = some "HS256")
    (hsig : cd.decodeSegment p2 =
      .ok (cd.hmac .SHA256 (api.signingKey.getD []) (p0 ++ "." ++ p1)))
    (hv : cl.Valid now = Option.none) :
    parseToken (golangJwt cd now rd) api token api.signingKey = (some cl, Option.none) ∧
    GetClaimsFromJwt (golangJwt cd now rd) api token = (some cl, Option.none) ∧
    (∀ ctx : Context, rd ctx "bearer" = (token, Option.none) →
      Authenticator (golangJwt cd now rd) api ctx =
        .ret { ctx := some (.withValue ctx claimsKey (.claimsPtr (some cl))),
               err := Option.none, printed := Option.none,
               tag := some ("auth.sub", cl.Payload) }) ∧
    (∀ issuer audience : String,
      GetClaimsFromJwt (golangJwt cd now rd)
        { api with issuer := issuer, audience := audience } token = (some cl, Option.none)) := by
  have hm : GetSigningMethod "HS256" = some (.HMAC .SHA256) := by decide
  have hp : ∀ a : API, parseToken (golangJwt cd now rd) a token api.signingKey =
      (some cl, Option.none) := fun a =>
    parseToken_accepts cd now rd a token api.signingKey p0 p1 p2 header cl "HS256" .SHA256
      hsplit hh hc halg hm hsig hv
  refine ⟨hp api, ?_, ?_, ?_⟩
  · simp [GetClaimsFromJwt, hp api]
  · intro ctx hmd
    have hmd2 : (golangJwt cd now rd).AuthFromMD ctx "bearer" = (token, Option.none) := hmd
    unfold Authenticator
    rw [hmd2]
    simp only
    rw [hp api]
    rfl
  · intro issuer audience
    simp [GetClaimsFromJwt, hp]

/-- Witness of C9 as amended, at the HS256 token of the claims of another issuer. -/
theorem parseToken_ignores_issuer_audience_witness :
    splitSegments "HS256.foreign-claims.Au" = ["HS256", "foreign-claims", "Au"] ∧
    sampleCodec.decodeHeader "HS256" = .ok hs256Header ∧
    sampleCodec.decodeClaims "foreign-claims" emptyClaims = .ok foreignClaims ∧
    List.lookup "alg" hs256Header = some "HS256" ∧
    sampleCodec.decodeSegment "Au" =
      .ok (sampleCodec.hmac .SHA256 (sampleAPI.signingKey.getD [])
        ("HS256" ++ "." ++ "foreign-claims")) ∧
    foreignClaims.Valid 3600 = Option.none ∧
    (parseToken (golangJwt sampleCodec 3600 (bearerOf "HS256.foreign-claims.Au")) sampleAPI
      "HS256.foreign-claims.Au" sampleAPI.signingKey = (some foreignClaims, Option.none) ∧
    GetClaimsFromJwt (golangJwt sampleCodec 3600 (bearerOf "HS256.foreign-claims.Au")) sampleAPI
      "HS256.foreign-claims.Au" = (some foreignClaims, Option.none) ∧
    (∀ ctx : Context,
      bearerOf "HS256.foreign-claims.Au" ctx "bearer" =
        ("HS256.foreign-claims.Au", Option.none) →
      Authenticator (golangJwt sampleCodec 3600 (bearerOf "HS256.foreign-claims.Au")) sampleAPI
          ctx =
        .ret { ctx := some (.withValue ctx claimsKey (.claimsPtr (some foreignClaims))),
               err := Option.none, printed := Option.none,
               tag := some ("auth.sub", foreignClaims.Payload) }) ∧
    (∀ issuer audience : String,
      GetClaimsFromJwt (golangJwt sampleCodec 3600 (bearerOf "HS256.foreign-claims.Au"))
        { sampleAPI with issuer := issuer, audience := audience } "HS256.foreign-claims.Au" =
          (some foreignClaims, Option.none))) :=
  ⟨by decide, by simp [sampleCodec, hs256Header],
    by simp [sampleCodec, sampleSegments, List.lookup], by decide,
    by simp [sampleCodec, sampleAPI, Hash.tag], by decide,
    parseToken_ignores_issuer_audience sampleCodec 3600 (bearerOf "HS256.foreign-claims.Au")
      sampleAPI "HS256.foreign-claims.Au" "HS256" "foreign-claims" "Au" hs256Header
      foreignClaims (by decide) (by simp [sampleCodec, hs256Header])
      (by simp [sampleCodec, sampleSegments, List.lookup]) (by decide)
      (by simp [sampleCodec, sampleAPI, Hash.tag]) (by decide)⟩

/-! ## Issuance and verification -/

theorem NewAPI_signingMethod (key : ByteSlice) (iss aud : String) (api : API)
    (h : NewAPI key iss aud = .ret api) : api.signingMethod = .HMAC .SHA256 := by
  unfold NewAPI at h
  split_ifs at h
  cases h
  rfl

theorem Time.Unix_le_of_lt (a b : Time) (h : a.nanos < b.nanos) : a.Unix ≤ b.Unix := by
  unfold Time.Unix
  exact Int.ediv_le_ediv (by norm_num) (le_of_lt h)

/-- A token issued by `genTokenV2` under `key` decodes under `key` to the claims with the
expiry that was set, as long as the clock has not passed the expiry. -/
theorem genTokenV2_parseToken (cd : Codec) (now : Int)
    (rd : Context → String → String × Option GoError) (api : API) (ctx : Context) (c : Claims)
    (expires : Int) (key : ByteSlice) (hm : api.signingMethod = .HMAC .SHA256)
    (hinv : cd.invertsOn { c with ExpiresAt := expires } key) (hv : now ≤ expires)
    (hiat : c.IssuedAt = 0 ∨ c.IssuedAt ≤ now) (hnbf : c.NotBefore = 0 ∨ c.NotBefore ≤ now) :
    ∃ token, genTokenV2 cd api ctx c expires key = (token, Option.none) ∧
      parseToken (golangJwt cd now rd) api token key =
        (some { c with ExpiresAt := expires }, Option.none) := by
  unfold Codec.invertsOn at hinv
  cases henc : cd.encodeClaims { c with ExpiresAt := expires } with
  | error e => simp [henc] at hinv
  | ok seg =>
    simp only [henc] at hinv
    obtain ⟨hdec, hhdr, hsig, hd0, hd1, hd2⟩ := hinv
    refine ⟨cd.encodeHeader hs256Header ++ "." ++ seg ++ "." ++
      hmacSign cd .SHA256 (cd.encodeHeader hs256Header ++ "." ++ seg) key, ?_, ?_⟩
    · simp [genTokenV2, henc, hm, SigningMethod.Alg, hs256Header]
    · have hvalid : Claims.Valid now { c with ExpiresAt := expires } = Option.none := by
        have h1 : Claims.verifyExp now { c with ExpiresAt := expires } = true := by
          simp [Claims.verifyExp, hv]
        have h2 : Claims.verifyIat now { c with ExpiresAt := expires } = true := by
          rcases hiat with h | h <;> simp [Claims.verifyIat, h]
        have h3 : Claims.verifyNbf now { c with ExpiresAt := expires } = true := by
          rcases hnbf with h | h <;> simp [Claims.verifyNbf, h]
        simp [Claims.Valid, h1, h2, h3]
      exact parseToken_accepts cd now rd api _ key (cd.encodeHeader hs256Header) seg
        (hmacSign cd .SHA256 (cd.encodeHeader hs256Header ++ "." ++ seg) key) hs256Header
        { c with ExpiresAt := expires } "HS256" .SHA256
        (splitSegments_three _ _ _ hd0 hd1 hd2) hhdr hdec (by decide) (by decide) hsig hvalid

/-- C10: for an API built by `NewAPI`, valid claims `c` (an issue time and a not-before time,
where set, are not later than the current time) and an expiry instant `e` later than the
current time, the token of `GenTokenFromClaims c e` decodes with `GetClaimsFromJwt` to `c`
with its expiry set to `e` (in Unix seconds), and the token of `GenTokenUsingKey c e key`
decodes under the same `key` to the same claims, provided the encoding primitives invert each
other on the token. -/
theorem token_round_trip (cd : Codec) (now e : Time)
    (rd : Context → String → String × Option GoError) (k : ByteSlice) (iss aud : String)
    (api : API) (ctx : Context) (c : Claims) (key : ByteSlice)
    (hnew : NewAPI k iss aud = .ret api)
    (hfuture : now.nanos < e.nanos)
    (hiat : c.IssuedAt = 0 ∨ c.IssuedAt ≤ now.Unix)
    (hnbf : c.NotBefore = 0 ∨ c.NotBefore ≤ now.Unix)
    (hown : cd.invertsOn { c with ExpiresAt := e.Unix } api.signingKey)
    (hkey : cd.invertsOn { c with ExpiresAt := e.Unix } key) :
    (∃ token, GenTokenFromClaims cd api ctx c e = (token, Option.none) ∧
      GetClaimsFromJwt (golangJwt cd now.Unix rd) api token =
        (some { c with ExpiresAt := e.Unix }, Option.none)) ∧
    (∃ token, GenTokenUsingKey cd api ctx c e key = (token, Option.none) ∧
      parseToken (golangJwt cd now.Unix rd) api token key =
        (some { c with ExpiresAt := e.Unix }, Option.none)) := by
  have hm := NewAPI_signingMethod k iss aud api hnew
  have hv := Time.Unix_le_of_lt now e hfuture
  constructor
  · obtain ⟨token, hgen, hparse⟩ :=
      genTokenV2_parseToken cd now.Unix rd api ctx c e.Unix api.signingKey hm hown hv hiat hnbf
    exact ⟨token, hgen, by simp [GetClaimsFromJwt, hparse]⟩
  · exact genTokenV2_parseToken cd now.Unix rd api ctx c e.Unix key hm hkey hv hiat hnbf

/-- Witness of C10 at the sample receiver, the sample claims without expiry, the expiry
instant 7200.5 s, the clock at 3600 s and the alternate key of one byte. -/
theorem token_round_trip_witness :
    NewAPI (some [1, 2, 3]) "auth.example" "api.example" = .ret sampleAPI ∧
    sampleNow.nanos < sampleExpiry.nanos ∧
    (draftClaims.IssuedAt = 0 ∨ draftClaims.IssuedAt ≤ sampleNow.Unix) ∧
    (draftClaims.NotBefore = 0 ∨ draftClaims.NotBefore ≤ sampleNow.Unix) ∧
    sampleCodec.invertsOn { draftClaims with ExpiresAt := sampleExpiry.Unix }
      sampleAPI.signingKey ∧
    sampleCodec.invertsOn { draftClaims with ExpiresAt := sampleExpiry.Unix } (some [9]) ∧
    ((∃ token, GenTokenFromClaims sampleCodec sampleAPI .background draftClaims sampleExpiry =
        (token, Option.none) ∧
      GetClaimsFromJwt (golangJwt sampleCodec sampleNow.Unix (bearerOf "")) sampleAPI token =
        (some { draftClaims with ExpiresAt := sampleExpiry.Unix }, Option.none)) ∧
    (∃ token, GenTokenUsingKey sampleCodec sampleAPI .background draftClaims sampleExpiry
        (some [9]) = (token, Option.none) ∧
      parseToken (golangJwt sampleCodec sampleNow.Unix (bearerOf "")) sampleAPI token (some [9]) =
        (some { draftClaims with ExpiresAt := sampleExpiry.Unix }, Option.none))) :=
  have h1 : sampleCodec.invertsOn { draftClaims with ExpiresAt := sampleExpiry.Unix }
      sampleAPI.signingKey := by
    decide
  have h2 : sampleCodec.invertsOn { draftClaims with ExpiresAt := sampleExpiry.Unix }
      (some [9]) := by
    decide
  ⟨by decide, by decide, by decide, by decide, h1, h2,
    token_round_trip sampleCodec sampleNow sampleExpiry (bearerOf "") (some [1, 2, 3])
      "auth.example" "api.example" sampleAPI .background draftClaims (some [9]) (by decide)
      (by decide) (by decide) (by decide) h1 h2⟩

/-! ## The content of a denial -/

theorem AuthorizeGroups_denied (api : API) (ctx : Context) (c : Claims) (p : Payload)
    (G : List String) (hctx : ctx.Value claimsKey = some (.claimsPtr (some c)))
    (hp : c.Payload = some p) (hrej : ¬ (p.Group ∈ G ∨ ∃ r ∈ c.Roles, r ∈ G)) :
    AuthorizeGroups api ctx G =
      .ret (Option.none, some (.status .PermissionDenied
        ("permission denied for groups " ++ ",".intercalate c.Roles))) := by
  have hc := claimsFromCtx_of_value ctx (some c) hctx
  have hg : p.Group ∉ G := fun e => hrej (Or.inl e)
  have hr : ¬ ∃ r ∈ c.Roles, r ∈ G := fun e => hrej (Or.inr e)
  have h1 := matchGroup_denied p.Group G hg
  have hloop : matchGroupsLoop c.Roles G = false := by
    cases hl : matchGroupsLoop c.Roles G with
    | false => rfl
    | true => exact absurd ((matchGroupsLoop_iff _ _).mp hl) hr
  simp [AuthorizeGroups, hc, hp, h1, matchGroups, hloop]

theorem AuthorizeIds_denied (api : API) (ctx : Context) (c : Claims) (I : List String)
    (hctx : ctx.Value claimsKey = some (.claimsPtr (some c))) (hrej : c.ID ∉ I) :
    AuthorizeIds api ctx I =
      .ret (Option.none, some (.status .PermissionDenied
        ("permission denied for actors ids [" ++ ", ".intercalate I ++ "]"))) := by
  have hc := claimsFromCtx_of_value ctx (some c) hctx
  have hl : idsLoop c.ID I = false := by
    cases e : idsLoop c.ID I with
    | false => rfl
    | true => exact absurd ((idsLoop_iff _ _).mp e) hrej
  simp [AuthorizeIds, hc, hl]

theorem String.append_cancel_both (a b x y : String) (h : a ++ x ++ b = a ++ y ++ b) :
    x = y := by
  have hd : (a ++ x ++ b).data = (a ++ y ++ b).data := by rw [h]
  simp only [String.data_append] at hd
  have h2 := List.append_cancel_right hd
  have h3 := List.append_cancel_left h2
  exact String.ext h3

/-- C11, the code at the failing input: the allow-lists `user-1` and `user-2` both reject the
sample claims, whose id is `user-42`, and `AuthorizeIds` returns two different errors for
them, each spelling out the allowed ids it was given and neither naming the rejected id. -/
theorem AuthorizeIds_error_lists_allowed_ids :
    sampleClaims.ID ∉ ["user-1"] ∧ sampleClaims.ID ∉ ["user-2"] ∧
    AuthorizeIds sampleAPI sampleCtx ["user-1"] =
      .ret (Option.none, some (.status .PermissionDenied
        "permission denied for actors ids [user-1]")) ∧
    AuthorizeIds sampleAPI sampleCtx ["user-2"] =
      .ret (Option.none, some (.status .PermissionDenied
        "permission denied for actors ids [user-2]")) ∧
    AuthorizeIds sampleAPI sampleCtx ["user-1"] ≠ AuthorizeIds sampleAPI sampleCtx ["user-2"] ∧
    Contains "permission denied for actors ids [user-1]" sampleClaims.ID = false := by
  refine ⟨by decide, by decide, by decide, by decide, by decide, by decide⟩

/-- For a context that carries claims `c` with a payload, the `PermissionDenied` error of
`AuthorizeGroups` is the same for any two allow-lists that both reject `c`. The
`PermissionDenied` error of `AuthorizeIds` spells out the allowed ids it was given, joined by
a comma and a blank: it is the same for two rejecting lists exactly when they join to the
same text, and it is the same for any other rejected claims. -/
theorem denial_error_content (api : API) (ctx : Context) (c : Claims) (p : Payload)
    (A B : List String) (hctx : ctx.Value claimsKey = some (.claimsPtr (some c)))
    (hp : c.Payload = some p) :
    (¬ (p.Group ∈ A ∨ ∃ r ∈ c.Roles, r ∈ A) → ¬ (p.Group ∈ B ∨ ∃ r ∈ c.Roles, r ∈ B) →
      AuthorizeGroups api ctx A = AuthorizeGroups api ctx B) ∧
    (c.ID ∉ A →
      AuthorizeIds api ctx A =
        .ret (Option.none, some (.status .PermissionDenied
          ("permission denied for actors ids [" ++ ", ".intercalate A ++ "]")))) ∧
    (c.ID ∉ A → c.ID ∉ B →
      (AuthorizeIds api ctx A = AuthorizeIds api ctx B ↔
        ", ".intercalate A = ", ".intercalate B)) ∧
    (∀ (ctx2 : Context) (c2 : Claims), ctx2.Value claimsKey = some (.claimsPtr (some c2)) →
      c.ID ∉ A → c2.ID ∉ A → AuthorizeIds api ctx2 A = AuthorizeIds api ctx A) := by
  refine ⟨?_, ?_, ?_, ?_⟩
  · intro hA hB
    rw [AuthorizeGroups_denied api ctx c p A hctx hp hA,
      AuthorizeGroups_denied api ctx c p B hctx hp hB]
  · intro hA
    exact AuthorizeIds_denied api ctx c A hctx hA
  · intro hA hB
    rw [AuthorizeIds_denied api ctx c A hctx hA, AuthorizeIds_denied api ctx c B hctx hB]
    constructor
    · intro h
      simp only [Exec.ret.injEq, Prod.mk.injEq, Option.some.injEq, GoError.status.injEq,
        true_and] at h
      exact String.append_cancel_both _ _ _ _ h
    · intro h
      rw [h]
  · intro ctx2 c2 hctx2 hA hA2
    rw [AuthorizeIds_denied api ctx c A hctx hA, AuthorizeIds_denied api ctx2 c2 A hctx2 hA2]

/-! ## What the group denial names -/

theorem startsWithChars_append (sub rest : List Char) :
    startsWithChars (sub ++ rest) sub = true := by
  induction sub with
  | nil => cases rest <;> rfl
  | cons c cs ih => simp [startsWithChars, ih]

theorem containsChars_of_starts (s sub : List Char) (h : startsWithChars s sub = true) :
    containsChars s sub = true := by
  cases s with
  | nil => simpa [containsChars] using h
  | cons c cs => simp [containsChars, h]

theorem containsChars_append (a sub b : List Char) :
    containsChars (a ++ (sub ++ b)) sub = true := by
  induction a with
  | nil => exact containsChars_of_starts _ _ (startsWithChars_append sub b)
  | cons c cs ih =>
    by_cases h : startsWithChars (c :: (cs ++ (sub ++ b))) sub = true
    · simp [containsChars, h]
    · simp [containsChars, h, ih]

theorem Contains_of_append (x r y : String) : Contains (x ++ r ++ y) r = true := by
  unfold Contains
  have hd : (x ++ r ++ y).data = x.data ++ (r.data ++ y.data) := by
    simp [String.data_append]
  rw [hd]
  exact containsChars_append _ _ _

theorem intercalate_go_spec (sep : String) (rest : List String) :
    ∀ acc : String,
      (∃ t, String.intercalate.go acc sep rest = acc ++ t) ∧
      (∀ r ∈ rest, ∃ x y, String.intercalate.go acc sep rest = x ++ r ++ y) := by
  induction rest with
  | nil =>
    intro acc
    exact ⟨⟨"", by simp [String.intercalate.go]⟩, by simp⟩
  | cons a rest ih =>
    intro acc
    obtain ⟨⟨t, ht⟩, hmem⟩ := ih (acc ++ sep ++ a)
    have hgo : String.intercalate.go acc sep (a :: rest) =
        String.intercalate.go (acc ++ sep ++ a) sep rest := rfl
    refine ⟨⟨sep ++ a ++ t, ?_⟩, ?_⟩
    · rw [hgo, ht]
      simp [String.append_assoc]
    · intro r hr
      rcases List.mem_cons.mp hr with e | e
      · exact ⟨acc ++ sep, t, by rw [hgo, ht, e]⟩
      · rw [hgo]
        exact hmem r e

theorem intercalate_names_each (sep : String) (l : List String) (r : String) (hr : r ∈ l) :
    ∃ x y, sep.intercalate l = x ++ r ++ y := by
  cases l with
  | nil => simp at hr
  | cons a rest =>
    have hdef : sep.intercalate (a :: rest) = String.intercalate.go a sep rest := rfl
    obtain ⟨⟨t, ht⟩, hmem⟩ := intercalate_go_spec sep rest a
    rcases List.mem_cons.mp hr with e | e
    · exact ⟨"", t, by rw [hdef, ht, e]; simp⟩
    · rw [hdef]
      exact hmem r e

/-- C12, the claim refuted: the allow-list `ops` rejects the sample claims, whose primary
group is `billing` and whose only role is `eng`; the error of `AuthorizeGroups` then reads
`permission denied for groups eng`, which does not contain `billing`. -/
theorem AuthorizeGroups_error_omits_group :
    ¬ (samplePayload.Group ∈ ["ops"] ∨ ∃ r ∈ sampleClaims.Roles, r ∈ ["ops"]) ∧
    AuthorizeGroups sampleAPI sampleCtx ["ops"] =
      .ret (Option.none, some (.status .PermissionDenied "permission denied for groups eng")) ∧
    Contains "permission denied for groups eng" samplePayload.Group = false := by
  refine ⟨by decide, by decide, by decide⟩

/-- C12 as amended: for a context that carries claims `c` with a payload and an allow-list
that holds neither the primary group nor a role of `c`, the `PermissionDenied` error of
`AuthorizeGroups` is the one of the roles check: its message is `permission denied for groups`
followed by the roles of `c` joined by commas, so it contains every role of `c`. -/
theorem AuthorizeGroups_error_names_roles (api : API) (ctx : Context) (c : Claims)
    (p : Payload) (G : List String)
    (hctx : ctx.Value claimsKey = some (.claimsPtr (some c))) (hp : c.Payload = some p)
    (hrej : ¬ (p.Group ∈ G ∨ ∃ r ∈ c.Roles, r ∈ G)) :
    AuthorizeGroups api ctx G =
      .ret (Option.none, some (.status .PermissionDenied
        ("permission denied for groups " ++ ",".intercalate c.Roles))) ∧
    (∀ r ∈ c.Roles,
      Contains ("permission denied for groups " ++ ",".intercalate c.Roles) r = true) := by
  refine ⟨AuthorizeGroups_denied api ctx c p G hctx hp hrej, ?_⟩
  intro r hr
  obtain ⟨x, y, hxy⟩ := intercalate_names_each "," c.Roles r hr
  have hform : "permission denied for groups " ++ ",".intercalate c.Roles =
      ("permission denied for groups " ++ x) ++ r ++ y := by
    rw [hxy]
    simp [String.append_assoc]
  rw [hform]
  exact Contains_of_append _ _ _

/-- Witness of C12 as amended, at the sample context and the allow-list `ops`. -/
theorem AuthorizeGroups_error_names_roles_witness :
    sampleCtx.Value claimsKey = some (.claimsPtr (some sampleClaims)) ∧
    sampleClaims.Payload = some samplePayload ∧
    ¬ (samplePayload.Group ∈ ["ops"] ∨ ∃ r ∈ sampleClaims.Roles, r ∈ ["ops"]) ∧
    (AuthorizeGroups sampleAPI sampleCtx ["ops"] =
      .ret (Option.none, some (.status .PermissionDenied
        ("permission denied for groups " ++ ",".intercalate sampleClaims.Roles))) ∧
    (∀ r ∈ sampleClaims.Roles,
      Contains ("permission denied for groups " ++ ",".intercalate sampleClaims.Roles) r =
        true)) :=
  ⟨by decide, rfl, by decide,
    AuthorizeGroups_error_names_roles sampleAPI sampleCtx sampleClaims samplePayload ["ops"]
      (by decide) rfl (by decide)⟩

/-! ## The receiver across method calls -/

theorem runOn_AuthorizeGroups (api : API) (ctx : Context) (groups : List String) :
    runOn api (Recv.AuthorizeGroups ctx groups) = (AuthorizeGroups api ctx groups, api) := by
  unfold runOn Recv.AuthorizeGroups AuthorizeGroups
  split
  · rfl
  · rfl
  · split
    · rfl
    · split
      · rfl
      · split <;> rfl

theorem runOn_AuthorizeIds (api : API) (ctx : Context) (ids : List String) :
    runOn api (Recv.AuthorizeIds ctx ids) = (AuthorizeIds api ctx ids, api) := by
  unfold runOn Recv.AuthorizeIds AuthorizeIds
  split
  · rfl
  · split <;> rfl
  · split <;> rfl

/-- C14: run on a receiver `api`, `AddAdminGroups` changes only the admin-group list, to which
it appends its arguments: the super-admin list, signing key, signing method, issuer and
audience stay, and so do the answers of `IsSuperAdmin` and `GetSigningKey`.
`AddSuperAdminGroups` changes only the super-admin list in the same way. `AdminGroups`,
`IsAdmin`, `IsSuperAdmin`, `IsGroupAllowed`, `AuthorizeGroups`, `AuthorizeIds` and
`GetSigningKey` return what the functions of the same names compute and leave the receiver
as it was. -/
theorem registry_calls_frame (api : API) (groups : List String) :
    ((runOn api (Recv.AddAdminGroups groups)).2 = AddAdminGroups api groups ∧
      (runOn api (Recv.AddAdminGroups groups)).2.adminsGroup = api.adminsGroup ++ groups ∧
      (runOn api (Recv.AddAdminGroups groups)).2.superAdmins = api.superAdmins ∧
      (runOn api (Recv.AddAdminGroups groups)).2.signingKey = api.signingKey ∧
      (runOn api (Recv.AddAdminGroups groups)).2.signingMethod = api.signingMethod ∧
      (runOn api (Recv.AddAdminGroups groups)).2.issuer = api.issuer ∧
      (runOn api (Recv.AddAdminGroups groups)).2.audience = api.audience ∧
      (∀ g, runOn (runOn api (Recv.AddAdminGroups groups)).2 (Recv.IsSuperAdmin g) =
        (IsSuperAdmin api g, (runOn api (Recv.AddAdminGroups groups)).2)) ∧
      (runOn (runOn api (Recv.AddAdminGroups groups)).2 Recv.GetSigningKey).1 =
        GetSigningKey api) ∧
    ((runOn api (Recv.AddSuperAdminGroups groups)).2 = AddSuperAdminGroups api groups ∧
      (runOn api (Recv.AddSuperAdminGroups groups)).2.superAdmins = api.superAdmins ++ groups ∧
      (runOn api (Recv.AddSuperAdminGroups groups)).2.adminsGroup = api.adminsGroup ∧
      (runOn api (Recv.AddSuperAdminGroups groups)).2.signingKey = api.signingKey ∧
      (runOn api (Recv.AddSuperAdminGroups groups)).2.signingMethod = api.signingMethod ∧
      (runOn api (Recv.AddSuperAdminGroups groups)).2.issuer = api.issuer ∧
      (runOn api (Recv.AddSuperAdminGroups groups)).2.audience = api.audience ∧
      (runOn (runOn api (Recv.AddSuperAdminGroups groups)).2 Recv.GetSigningKey).1 =
        GetSigningKey api) ∧
    (∀ (ctx : Context) (g : String) (gs : List String),
      runOn api Recv.AdminGroups = (AdminGroups api, api) ∧
      runOn api (Recv.IsAdmin g) = (IsAdmin api g, api) ∧
      runOn api (Recv.IsSuperAdmin g) = (IsSuperAdmin api g, api) ∧
      runOn api (Recv.IsGroupAllowed g gs) = (IsGroupAllowed api g gs, api) ∧
      runOn api (Recv.AuthorizeGroups ctx gs) = (AuthorizeGroups api ctx gs, api) ∧
      runOn api (Recv.AuthorizeIds ctx gs) = (AuthorizeIds api ctx gs, api) ∧
      runOn api Recv.GetSigningKey = (GetSigningKey api, api)) := by
  refine ⟨⟨rfl, rfl, rfl, rfl, rfl, rfl, rfl, fun _ => rfl, rfl⟩,
    ⟨rfl, rfl, rfl, rfl, rfl, rfl, rfl, rfl⟩, ?_⟩
  intro ctx g gs
  exact ⟨rfl, rfl, rfl, rfl, runOn_AuthorizeGroups api ctx gs, runOn_AuthorizeIds api ctx gs,
    rfl⟩

/-! ## Claims without a payload -/

/-- C15, the code at the failing inputs: `Authenticator` accepts a token whose claims have no
payload and attaches them to the context; on that context `AuthorizeGroups` panics on the nil
`Payload` pointer, although the role `eng` is allowed, while `AuthorizeIds` returns normally.
On a context holding a nil `*Claims`, `AuthorizeGroups` panics as well, while `GetClaims`
returns normally. -/
theorem AuthorizeGroups_panics_on_nil_payload :
    Authenticator (anonymousLib "HS256.anonymous-claims.Ap") sampleAPI .background =
      .ret { ctx := some anonymousCtx, err := Option.none, printed := Option.none,
             tag := some ("auth.sub", Option.none) } ∧
    AuthorizeGroups sampleAPI anonymousCtx ["eng"] = .panic nilDeref ∧
    AuthorizeIds sampleAPI anonymousCtx ["user-7"] = .ret (Option.none, Option.none) ∧
    AuthorizeGroups sampleAPI nilClaimsCtx [] = .panic nilDeref ∧
    GetClaims sampleAPI nilClaimsCtx = .ret (Option.none, Option.none) := by
  refine ⟨by decide, by decide, by decide, by decide, by decide⟩

end GrpcAuth

namespace Conn

/-! ## The address `DialGrpcService` dials -/

/-- An address that does not end with the scheme is dialed with the scheme put in front of
it, whether or not it starts with the scheme already. -/
theorem DialGrpcService_address (opt : GrpcDialOptions) :
    (opt.K8Service = true → HasSuffix opt.Address "dns:///" = false →
      (DialGrpcService dialedAddress () opt).1 = "dns:///" ++ opt.Address) ∧
    (opt.K8Service = false → HasSuffix opt.Address "passthrough:///" = false →
      (DialGrpcService dialedAddress () opt).1 = "passthrough:///" ++ opt.Address) := by
  constructor
  · intro hk hs
    simp [DialGrpcService, dialedAddress, hk, TrimSuffix, hs]
  · intro hk hs
    simp [DialGrpcService, dialedAddress, hk, TrimSuffix, hs]

/-- C16, the code at the failing inputs: an address that already starts with `dns:///` is
dialed with the scheme twice when `K8Service` is true, and likewise for `passthrough:///`
when it is false; what the code strips before prepending the scheme is a trailing occurrence
of it. -/
theorem DialGrpcService_doubles_scheme :
    DialGrpcService dialedAddress ()
        { ServiceName := "billing", Address := "dns:///billing:9090", DialOptions := [],
          K8Service := true } =
      ("dns:///dns:///billing:9090",
        { ServiceName := "billing", Address := "dns:///dns:///billing:9090", DialOptions := [],
          K8Service := true }) ∧
    DialGrpcService dialedAddress ()
        { ServiceName := "billing", Address := "passthrough:///billing:9090", DialOptions := [],
          K8Service := false } =
      ("passthrough:///passthrough:///billing:9090",
        { ServiceName := "billing", Address := "passthrough:///passthrough:///billing:9090",
          DialOptions := [], K8Service := false }) ∧
    (DialGrpcService dialedAddress ()
        { ServiceName := "billing", Address := "billing:9090dns:///", DialOptions := [],
          K8Service := true }).1 = "dns:///billing:9090" := by
  refine ⟨by decide, by decide, by decide⟩

end Conn

namespace Gomicro

/-! ## The logger of a new service -/

/-- C13, the code at the failing input: for options whose `Logger` is nil, `NewService` returns
a service whose options still have a nil `Logger`; it is a logger the caller did set that the
default logger replaces. -/
theorem NewService_keeps_nil_logger (NewLogger : String → Int → Logger) (opt : Options)
    (custom : Logger) :
    (∃ svc, NewService NewLogger (some { opt with Logger := Option.none }) =
        .ret (some svc, Option.none) ∧ svc.options.Logger = Option.none) ∧
    (∃ svc, NewService NewLogger (some { opt with Logger := some custom }) =
        .ret (some svc, Option.none) ∧
        svc.options.Logger = some (NewLogger "app" TraceLevel)) ∧
    (∃ svc, NewService sampleNewLogger (some sampleOptions) = .ret (some svc, Option.none) ∧
        svc.options.Logger = Option.none) := by
  refine ⟨?_, ?_, ?_⟩
  · simp [NewService]
  · simp [NewService]
  · simp [NewService, sampleOptions]

end Gomicro
